import Mathlib

/-!
# VOLK kernels `volk_32u_byteswap` and `volk_16i_x4_quad_max_star_16i`

A shallow embedding of the kernel variants of
`kernels/volk/volk_32u_byteswap.h` and
`kernels/volk/volk_16i_x4_quad_max_star_16i.h`, and theorems about them.

* A buffer is a list; an access outside the list is undefined behaviour in C
  and is `none` here, so every kernel returns an `Option`.
* A `uint32_t` is a `Nat` below `2 ^ 32`, a `short` is an `Int` in
  `[-32768, 32767]`, an `unsigned int` count is a `Nat` (reduced modulo
  `2 ^ 32` where the source can overflow).
* A vector register is the list of its lanes: 32-bit lanes or bytes for the
  byte swap, 16-bit lanes (as bit patterns `0 .. 65535`) for the quad
  max-star.
-/

namespace Volk

/-! ## Buffers and loops -/

/-- Scalar read `p[i]`. -/
def readAt {α : Type} (mem : List α) (i : Nat) : Option α :=
  mem[i]?

/-- Scalar write `p[i] = v`. -/
def writeAt {α : Type} (mem : List α) (i : Nat) (v : α) : Option (List α) :=
  if i < mem.length then some (mem.set i v) else none

/-- Read of `n` consecutive elements starting at element `off`. -/
def readBlock {α : Type} (mem : List α) (off n : Nat) : Option (List α) :=
  if off + n ≤ mem.length then some ((mem.drop off).take n) else none

/-- Write of the consecutive elements `v` starting at element `off`. -/
def writeBlock {α : Type} (mem : List α) (off : Nat) (v : List α) : Option (List α) :=
  if off + v.length ≤ mem.length then
    some (mem.take off ++ v ++ mem.drop (off + v.length))
  else none

/-- A counted loop: `fuel` successive runs of `body`, which is given the
counter, starting at `i` and incremented after each run. -/
def forLoop {σ : Type} (body : Nat → σ → Option σ) : Nat → Nat → σ → Option σ
  | 0, _, s => some s
  | fuel + 1, i, s => (body i s).bind (forLoop body fuel (i + 1))

/-- The loop `for (i = lo; i < hi; i++) body`. -/
def forRange {σ : Type} (body : Nat → σ → Option σ) (lo hi : Nat) (s : σ) : Option σ :=
  forLoop body (hi - lo) lo s

/-! ## 32-bit byte swap -/

/-- The scalar expression
`((w >> 24) & 0xff) | ((w >> 8) & 0x0000ff00) | ((w << 8) & 0x00ff0000) | ((w << 24) & 0xff000000)`
on a `uint32_t` (left shifts are reduced modulo `2 ^ 32`). -/
def byteswap_scalar (w : Nat) : Nat :=
  ((w >>> 24) &&& 0xff) ||| ((w >>> 8) &&& 0x0000ff00) |||
    (((w <<< 8) % 2 ^ 32) &&& 0x00ff0000) ||| (((w <<< 24) % 2 ^ 32) &&& 0xff000000)

/-- State of a byte-swap kernel: the buffer `intsToSwap` and the offset of
`inputPtr` in it, in words. -/
structure SwapState where
  mem : List Nat
  inputPtr : Nat

/-- The scalar loop body shared by the generic kernel and by every tail loop:
`output = *inputPtr; output = <swap>; *inputPtr = output; inputPtr++`. -/
def scalar_body (_number : Nat) (s : SwapState) : Option SwapState :=
  (readAt s.mem s.inputPtr).bind fun output =>
    let output := byteswap_scalar output
    (writeAt s.mem s.inputPtr output).map fun mem => ⟨mem, s.inputPtr + 1⟩

/-- Model of `volk_32u_byteswap_generic`. -/
def volk_32u_byteswap_generic (intsToSwap : List Nat) (num_points : Nat) :
    Option (List Nat) :=
  (forRange scalar_body 0 num_points ⟨intsToSwap, 0⟩).map SwapState.mem

/-! ### SSE2 (four 32-bit lanes) -/

/-- Model of `_mm_set1_epi32`. -/
def mm_set1_epi32 (a : Nat) : List Nat := [a, a, a, a]

/-- Model of `_mm_slli_epi32`: logical left shift of every 32-bit lane. -/
def mm_slli_epi32 (a : List Nat) (imm8 : Nat) : List Nat :=
  a.map fun x => (x <<< imm8) % 2 ^ 32

/-- Model of `_mm_srli_epi32`: logical right shift of every 32-bit lane. -/
def mm_srli_epi32 (a : List Nat) (imm8 : Nat) : List Nat :=
  a.map fun x => x >>> imm8

/-- Model of `_mm_or_si128`. -/
def mm_or_si128 (a b : List Nat) : List Nat := List.zipWith (· ||| ·) a b

/-- Model of `_mm_and_si128`. -/
def mm_and_si128 (a b : List Nat) : List Nat := List.zipWith (· &&& ·) a b

/-- Model of `_mm_loadu_si128` of four words at `inputPtr`. -/
def mm_loadu_si128 (mem : List Nat) (p : Nat) : Option (List Nat) := readBlock mem p 4

/-- Model of `_mm_storeu_si128` of four words at `inputPtr`. -/
def mm_storeu_si128 (mem : List Nat) (p : Nat) (a : List Nat) : Option (List Nat) :=
  writeBlock mem p a

/-- Model of `_mm_load_si128` of four words (the alignment requirement is not modelled). -/
def mm_load_si128_epi32 (mem : List Nat) (p : Nat) : Option (List Nat) := readBlock mem p 4

/-- Model of `_mm_store_si128` of four words (the alignment requirement is not modelled). -/
def mm_store_si128_epi32 (mem : List Nat) (p : Nat) (a : List Nat) : Option (List Nat) :=
  writeBlock mem p a

/-- The register computation of the SSE2 byte-swap loop body. -/
def sse2_swap (input : List Nat) : List Nat :=
  let byte2mask := mm_set1_epi32 0x00FF0000
  let byte3mask := mm_set1_epi32 0x0000FF00
  let byte1 := mm_slli_epi32 input 24
  let byte2 := mm_slli_epi32 input 8
  let byte3 := mm_srli_epi32 input 8
  let byte4 := mm_srli_epi32 input 24
  let output := mm_or_si128 byte1 byte4
  let byte2 := mm_and_si128 byte2 byte2mask
  let output := mm_or_si128 output byte2
  let byte3 := mm_and_si128 byte3 byte3mask
  let output := mm_or_si128 output byte3
  output

/-- Vector loop body of `volk_32u_byteswap_u_sse2`. -/
def u_sse2_body (_number : Nat) (s : SwapState) : Option SwapState :=
  (mm_loadu_si128 s.mem s.inputPtr).bind fun input =>
    (mm_storeu_si128 s.mem s.inputPtr (sse2_swap input)).map fun mem =>
      ⟨mem, s.inputPtr + 4⟩

/-- Model of `volk_32u_byteswap_u_sse2`. -/
def volk_32u_byteswap_u_sse2 (intsToSwap : List Nat) (num_points : Nat) :
    Option (List Nat) :=
  let quarterPoints := num_points / 4
  ((forRange u_sse2_body 0 quarterPoints ⟨intsToSwap, 0⟩).bind fun s =>
    forRange scalar_body (quarterPoints * 4) num_points s).map SwapState.mem

/-- Vector loop body of `volk_32u_byteswap_a_sse2`. -/
def a_sse2_body (_number : Nat) (s : SwapState) : Option SwapState :=
  (mm_load_si128_epi32 s.mem s.inputPtr).bind fun input =>
    (mm_store_si128_epi32 s.mem s.inputPtr (sse2_swap input)).map fun mem =>
      ⟨mem, s.inputPtr + 4⟩

/-- Model of `volk_32u_byteswap_a_sse2`. -/
def volk_32u_byteswap_a_sse2 (intsToSwap : List Nat) (num_points : Nat) :
    Option (List Nat) :=
  let quarterPoints := num_points / 4
  ((forRange a_sse2_body 0 quarterPoints ⟨intsToSwap, 0⟩).bind fun s =>
    forRange scalar_body (quarterPoints * 4) num_points s).map SwapState.mem

/-! ### Bytes of a word buffer (little-endian) -/

/-- The four bytes of a `uint32_t` in memory order. -/
def wordBytes (w : Nat) : List Nat :=
  [w % 256, w / 256 % 256, w / 65536 % 256, w / 16777216 % 256]

/-- The bytes of a list of words in memory order. -/
def toBytes : List Nat → List Nat
  | [] => []
  | w :: ws => wordBytes w ++ toBytes ws

/-- The words held by a list of bytes in memory order. -/
def fromBytes : List Nat → List Nat
  | b0 :: b1 :: b2 :: b3 :: rest =>
    (b0 + 256 * b1 + 65536 * b2 + 16777216 * b3) :: fromBytes rest
  | _ => []

/-! ### AVX2 (32 bytes) -/

/-- The array `shuffleVector`. -/
def shuffleVector : List Nat :=
  [3, 2, 1, 0, 7, 6, 5, 4, 11, 10, 9, 8, 15, 14, 13, 12,
   19, 18, 17, 16, 23, 22, 21, 20, 27, 26, 25, 24, 31, 30, 29, 28]

/-- Model of `_mm256_loadu_si256` of eight words at `inputPtr`, as 32 bytes. -/
def mm256_loadu_si256 (mem : List Nat) (p : Nat) : Option (List Nat) :=
  (readBlock mem p 8).map toBytes

/-- Model of `_mm256_storeu_si256` of 32 bytes at `inputPtr`. -/
def mm256_storeu_si256 (mem : List Nat) (p : Nat) (a : List Nat) : Option (List Nat) :=
  writeBlock mem p (fromBytes a)

/-- Model of `_mm256_shuffle_epi8`: byte `i` of the result is `0` when bit 7 of `b[i]`
is set, and else byte `b[i] & 15` of the 16-byte half of `a` that holds `i`. -/
def mm256_shuffle_epi8 (a b : List Nat) : List Nat :=
  (List.range 32).map fun i =>
    if b.getD i 0 &&& 0x80 ≠ 0 then 0
    else a.getD (i / 16 * 16 + (b.getD i 0 &&& 0x0F)) 0

/-- Vector loop body of `volk_32u_byteswap_u_avx2`. -/
def u_avx2_body (_number : Nat) (s : SwapState) : Option SwapState :=
  let nPerSet := 8
  let myShuffle := shuffleVector
  (mm256_loadu_si256 s.mem s.inputPtr).bind fun input =>
    let output := mm256_shuffle_epi8 input myShuffle
    (mm256_storeu_si256 s.mem s.inputPtr output).map fun mem =>
      ⟨mem, s.inputPtr + nPerSet⟩

/-- Model of `volk_32u_byteswap_u_avx2`. -/
def volk_32u_byteswap_u_avx2 (intsToSwap : List Nat) (num_points : Nat) :
    Option (List Nat) :=
  let nPerSet := 8
  let nSets := num_points / nPerSet
  ((forRange u_avx2_body 0 nSets ⟨intsToSwap, 0⟩).bind fun s =>
    forRange scalar_body (nSets * nPerSet) num_points s).map SwapState.mem

/-- Model of `_mm256_load_si256` (the alignment requirement is not modelled). -/
def mm256_load_si256 (mem : List Nat) (p : Nat) : Option (List Nat) :=
  (readBlock mem p 8).map toBytes

/-- Model of `_mm256_store_si256` (the alignment requirement is not modelled). -/
def mm256_store_si256 (mem : List Nat) (p : Nat) (a : List Nat) : Option (List Nat) :=
  writeBlock mem p (fromBytes a)

/-- Vector loop body of `volk_32u_byteswap_a_avx2`. -/
def a_avx2_body (_number : Nat) (s : SwapState) : Option SwapState :=
  let nPerSet := 8
  let myShuffle := shuffleVector
  (mm256_load_si256 s.mem s.inputPtr).bind fun input =>
    let output := mm256_shuffle_epi8 input myShuffle
    (mm256_store_si256 s.mem s.inputPtr output).map fun mem =>
      ⟨mem, s.inputPtr + nPerSet⟩

/-- Model of `volk_32u_byteswap_a_avx2`. -/
def volk_32u_byteswap_a_avx2 (intsToSwap : List Nat) (num_points : Nat) :
    Option (List Nat) :=
  let nPerSet := 8
  let nSets := num_points / nPerSet
  ((forRange a_avx2_body 0 nSets ⟨intsToSwap, 0⟩).bind fun s =>
    forRange scalar_body (nSets * nPerSet) num_points s).map SwapState.mem

/-! ### NEON (four 8-byte table registers) -/

/-- Model of `vcreate_u8`: the eight bytes of a 64-bit constant, least significant
first. -/
def vcreate_u8 (a : Nat) : List Nat :=
  (List.range 8).map fun i => a / 256 ^ i % 256

/-- Model of `vld4_u8` at `inputPtr`: 32 bytes read 4-way de-interleaved, register `k`
holding the bytes `k, k + 4, k + 8, ...`. -/
def vld4_u8 (mem : List Nat) (p : Nat) : Option (List (List Nat)) :=
  (readBlock mem p 8).map fun ws =>
    (List.range 4).map fun k => (List.range 8).map fun m => (toBytes ws).getD (4 * m + k) 0

/-- Model of `vtbl4_u8`: lookup in the 32-byte table made of the four registers in
order; an index of 32 or more gives `0`. -/
def vtbl4_u8 (t : List (List Nat)) (idx : List Nat) : List Nat :=
  idx.map fun i => if i < 32 then t.flatten.getD i 0 else 0

/-- Model of `vst1_u8` of eight bytes at word offset `p`. -/
def vst1_u8 (mem : List Nat) (p : Nat) (a : List Nat) : Option (List Nat) :=
  writeBlock mem p (fromBytes a)

/-- Vector loop body of `volk_32u_byteswap_neon`. -/
def neon_body (_number : Nat) (s : SwapState) : Option SwapState :=
  let int_lookup01 := vcreate_u8 74609667900706840
  let int_lookup23 := vcreate_u8 219290013576860186
  let int_lookup45 := vcreate_u8 363970359253013532
  let int_lookup67 := vcreate_u8 508650704929166878
  (vld4_u8 s.mem s.inputPtr).bind fun input_table =>
    let swapped_int01 := vtbl4_u8 input_table int_lookup01
    let swapped_int23 := vtbl4_u8 input_table int_lookup23
    let swapped_int45 := vtbl4_u8 input_table int_lookup45
    let swapped_int67 := vtbl4_u8 input_table int_lookup67
    (vst1_u8 s.mem s.inputPtr swapped_int01).bind fun mem =>
    (vst1_u8 mem (s.inputPtr + 2) swapped_int23).bind fun mem =>
    (vst1_u8 mem (s.inputPtr + 4) swapped_int45).bind fun mem =>
    (vst1_u8 mem (s.inputPtr + 6) swapped_int67).map fun mem =>
      ⟨mem, s.inputPtr + 8⟩

/-- Model of `volk_32u_byteswap_neon`. -/
def volk_32u_byteswap_neon (intsToSwap : List Nat) (num_points : Nat) :
    Option (List Nat) :=
  let n8points := num_points / 8
  ((forRange neon_body 0 n8points ⟨intsToSwap, 0⟩).bind fun s =>
    forRange scalar_body (n8points * 8) num_points s).map SwapState.mem

/-! ### NEONv8 (16-byte table lookups) -/

/-- Modelled from the spec: the macro `__VOLK_PREFETCH` is defined outside the
two kernel files; it is a cache prefetch hint, and a kernel has no observable
effect beyond its writes to the buffer, so it leaves the state as it is. -/
def VOLK_PREFETCH (s : SwapState) (_addr : Nat) : SwapState := s

/-- Model of `vld1q_u8` of four words at word offset `p`, as 16 bytes. -/
def vld1q_u8 (mem : List Nat) (p : Nat) : Option (List Nat) :=
  (readBlock mem p 4).map toBytes

/-- Model of `vqtbl1q_u8`: lookup in a 16-byte table; an index of 16 or more
gives `0`. -/
def vqtbl1q_u8 (t idx : List Nat) : List Nat :=
  idx.map fun i => if i < 16 then t.getD i 0 else 0

/-- Model of `vst1q_u8` of 16 bytes at word offset `p`. -/
def vst1q_u8 (mem : List Nat) (p : Nat) (a : List Nat) : Option (List Nat) :=
  writeBlock mem p (fromBytes a)

/-- Vector loop body of `volk_32u_byteswap_neonv8`: two lookups of four words
each. -/
def neonv8_body (_number : Nat) (s : SwapState) : Option SwapState :=
  let idx := [3, 2, 1, 0, 7, 6, 5, 4, 11, 10, 9, 8, 15, 14, 13, 12]
  let s := VOLK_PREFETCH s (s.inputPtr + 8)
  (vld1q_u8 s.mem s.inputPtr).bind fun input =>
    let input := vqtbl1q_u8 input idx
    (vst1q_u8 s.mem s.inputPtr input).bind fun mem =>
      let inputPtr := s.inputPtr + 4
      (vld1q_u8 mem inputPtr).bind fun input =>
        let input := vqtbl1q_u8 input idx
        (vst1q_u8 mem inputPtr input).map fun mem => ⟨mem, inputPtr + 4⟩

/-- Model of `volk_32u_byteswap_neonv8`. -/
def volk_32u_byteswap_neonv8 (intsToSwap : List Nat) (num_points : Nat) :
    Option (List Nat) :=
  let n8points := num_points / 8
  ((forRange neonv8_body 0 n8points ⟨intsToSwap, 0⟩).bind fun s =>
    forRange scalar_body (n8points * 8) num_points s).map SwapState.mem

/-! ## Quad max-star on 16-bit integers -/

/-- The conversion `(short)x` of an `int`: reduction to `[-32768, 32767]`
modulo `2 ^ 16`. -/
def toShort (x : Int) : Int := (x + 32768) % 65536 - 32768

/-- The expression `((short)(x - y) > 0) ? x : y` of the scalar loops. -/
def scalar_select (x y : Int) : Int :=
  if toShort (x - y) > 0 then x else y

/-- The scalar loop body shared by the generic kernel and the SSE2 tail,
at index `i`. -/
def quad_scalar_body (src0 src1 src2 src3 : List Int) (i : Nat) (target : List Int) :
    Option (List Int) :=
  (readAt src0 i).bind fun x0 =>
  (readAt src1 i).bind fun x1 =>
  (readAt src2 i).bind fun x2 =>
  (readAt src3 i).bind fun x3 =>
    let temp0 := scalar_select x0 x1
    let temp1 := scalar_select x2 x3
    writeAt target i (scalar_select temp0 temp1)

/-- Model of `volk_16i_x4_quad_max_star_16i_generic`. -/
def volk_16i_x4_quad_max_star_16i_generic (target src0 src1 src2 src3 : List Int)
    (num_points : Nat) : Option (List Int) :=
  let num_bytes := (num_points * 2) % 2 ^ 32
  let bound := num_bytes >>> 1
  forRange (quad_scalar_body src0 src1 src2 src3) 0 bound target

/-! ### 16-bit lanes -/

/-- Bit pattern of a `short`. -/
def toBits16 (x : Int) : Nat := (x % 65536).toNat

/-- The `short` held by a 16-bit pattern. -/
def ofBits16 (n : Nat) : Int := if n < 32768 then (n : Int) else (n : Int) - 65536

/-- One lane of a 16-bit subtraction: `x - y` modulo `2 ^ 16`. -/
def sub16 (x y : Nat) : Nat := (x + 65536 - y) % 65536

/-- One lane of a 16-bit addition: `x + y` modulo `2 ^ 16`. -/
def add16 (x y : Nat) : Nat := (x + y) % 65536

/-- One lane of a signed compare-greater-than: all ones when `x > y`. -/
def cmpgt16 (x y : Nat) : Nat := if ofBits16 x > ofBits16 y then 0xFFFF else 0

/-- One lane of a signed compare-greater-or-equal: all ones when `x >= y`. -/
def cmpge16 (x y : Nat) : Nat := if ofBits16 x ≥ ofBits16 y then 0xFFFF else 0

/-- One lane of a signed compare-less-than: all ones when `x < y`. -/
def cmplt16 (x y : Nat) : Nat := if ofBits16 x < ofBits16 y then 0xFFFF else 0

/-- One 16-bit lane of and-not: `(~x) & y`. -/
def andnot16 (x y : Nat) : Nat := (x ^^^ 0xFFFF) &&& y

/-- Model of `_mm_sub_epi16`. -/
def mm_sub_epi16 (a b : List Nat) : List Nat := List.zipWith sub16 a b

/-- Model of `_mm_add_epi16`. -/
def mm_add_epi16 (a b : List Nat) : List Nat := List.zipWith add16 a b

/-- Model of `_mm_cmpgt_epi16`. -/
def mm_cmpgt_epi16 (a b : List Nat) : List Nat := List.zipWith cmpgt16 a b

/-- Model of `_mm_andnot_si128` on 16-bit lanes. -/
def mm_andnot_si128 (a b : List Nat) : List Nat := List.zipWith andnot16 a b

/-- Model of `_mm_xor_si128`. -/
def mm_xor_si128 (a b : List Nat) : List Nat := List.zipWith (· ^^^ ·) a b

/-- Model of `_mm_setzero_si128` as eight 16-bit lanes. -/
def mm_setzero_si128 : List Nat := List.replicate 8 0

/-- Model of `_mm_load_si128` of the `p`-th group of eight shorts. -/
def mm_load_si128 (mem : List Int) (p : Nat) : Option (List Nat) :=
  (readBlock mem (8 * p) 8).map fun v => v.map toBits16

/-- Model of `_mm_store_si128` to the `p`-th group of eight shorts. -/
def mm_store_si128 (mem : List Int) (p : Nat) (a : List Nat) : Option (List Int) :=
  writeBlock mem (8 * p) (a.map ofBits16)

/-- The register computation of the SSE2 loop body, lines 85-119, from the four
loaded registers; the result holds `xmm2` and `xmm6` after line 106 (the two
inner selections) and the stored `xmm1`. -/
def a_sse2_regs (xmm1 xmm2 xmm3 xmm4 : List Nat) : List Nat × List Nat × List Nat :=
  let xmm5 := mm_setzero_si128
  let xmm6 := mm_setzero_si128
  let xmm7 := xmm1
  let xmm8 := xmm3
  let xmm1 := mm_sub_epi16 xmm2 xmm1
  let xmm3 := mm_sub_epi16 xmm4 xmm3
  let xmm5 := mm_cmpgt_epi16 xmm1 xmm5
  let xmm6 := mm_cmpgt_epi16 xmm3 xmm6
  let xmm2 := mm_and_si128 xmm5 xmm2
  let xmm4 := mm_and_si128 xmm6 xmm4
  let xmm5 := mm_andnot_si128 xmm5 xmm7
  let xmm6 := mm_andnot_si128 xmm6 xmm8
  let xmm5 := mm_add_epi16 xmm2 xmm5
  let xmm6 := mm_add_epi16 xmm4 xmm6
  let xmm1 := mm_xor_si128 xmm1 xmm1
  let xmm2 := xmm5
  let xmm5 := mm_sub_epi16 xmm6 xmm5
  let xmm1 := mm_cmpgt_epi16 xmm5 xmm1
  let xmm6and := mm_and_si128 xmm1 xmm6
  let xmm1 := mm_andnot_si128 xmm1 xmm2
  let xmm1 := mm_add_epi16 xmm6and xmm1
  (xmm2, xmm6, xmm1)

/-- State of the SSE2 quad max-star loop: the target buffer and the five
vector pointers, in units of one `__m128i`. -/
structure QuadSse2State where
  target : List Int
  p_target : Nat
  p_src0 : Nat
  p_src1 : Nat
  p_src2 : Nat
  p_src3 : Nat

/-- Body of the loop `while (bound_copy > 0)` of
`volk_16i_x4_quad_max_star_16i_a_sse2`. -/
def quad_sse2_body (src0 src1 src2 src3 : List Int) (_n : Nat) (s : QuadSse2State) :
    Option QuadSse2State :=
  (mm_load_si128 src0 s.p_src0).bind fun xmm1 =>
  (mm_load_si128 src1 s.p_src1).bind fun xmm2 =>
  (mm_load_si128 src2 s.p_src2).bind fun xmm3 =>
  (mm_load_si128 src3 s.p_src3).bind fun xmm4 =>
    (mm_store_si128 s.target s.p_target (a_sse2_regs xmm1 xmm2 xmm3 xmm4).2.2).map
      fun target =>
        ⟨target, s.p_target + 1, s.p_src0 + 1, s.p_src1 + 1, s.p_src2 + 1, s.p_src3 + 1⟩

/-- Model of `volk_16i_x4_quad_max_star_16i_a_sse2`. The loop over `bound_copy`, which
counts down from `bound` to `0`, is run `bound` times. -/
def volk_16i_x4_quad_max_star_16i_a_sse2 (target src0 src1 src2 src3 : List Int)
    (num_points : Nat) : Option (List Int) :=
  let num_bytes := (num_points * 2) % 2 ^ 32
  let bound := num_bytes >>> 4
  let leftovers := (num_bytes >>> 1) &&& 7
  (forLoop (quad_sse2_body src0 src1 src2 src3) bound 0 ⟨target, 0, 0, 0, 0, 0⟩).bind
    fun s =>
      forRange (quad_scalar_body src0 src1 src2 src3) (bound * 8) (bound * 8 + leftovers)
        s.target

/-! ### NEON -/

/-- Model of `vdupq_n_s16`. -/
def vdupq_n_s16 (x : Nat) : List Nat := List.replicate 8 x

/-- Model of `vsubq_s16`. -/
def vsubq_s16 (a b : List Nat) : List Nat := List.zipWith sub16 a b

/-- Model of `vaddq_s16`. -/
def vaddq_s16 (a b : List Nat) : List Nat := List.zipWith add16 a b

/-- Model of `vcgeq_s16`. -/
def vcgeq_s16 (a b : List Nat) : List Nat := List.zipWith cmpge16 a b

/-- Model of `vcltq_s16`. -/
def vcltq_s16 (a b : List Nat) : List Nat := List.zipWith cmplt16 a b

/-- Model of `vandq_s16`. -/
def vandq_s16 (a b : List Nat) : List Nat := List.zipWith (· &&& ·) a b

/-- Model of `vld1q_s16` of eight shorts at element offset `p`. -/
def vld1q_s16 (mem : List Int) (p : Nat) : Option (List Nat) :=
  (readBlock mem p 8).map fun v => v.map toBits16

/-- Model of `vst1q_s16` of eight shorts at element offset `p`. -/
def vst1q_s16 (mem : List Int) (p : Nat) (a : List Nat) : Option (List Int) :=
  writeBlock mem p (a.map ofBits16)

/-- The register computation of the NEON loop body, lines 163-182; the result
holds `result1_vec` and `result2_vec` after line 175 (the two inner
selections) and the stored `result1_vec`. -/
def neon_regs (src0_vec src1_vec src2_vec src3_vec : List Nat) :
    List Nat × List Nat × List Nat :=
  let zeros := vdupq_n_s16 0
  let diff12 := vsubq_s16 src0_vec src1_vec
  let diff34 := vsubq_s16 src2_vec src3_vec
  let comp0 := vcgeq_s16 diff12 zeros
  let comp1 := vcltq_s16 diff12 zeros
  let comp2 := vcgeq_s16 diff34 zeros
  let comp3 := vcltq_s16 diff34 zeros
  let comp0 := vandq_s16 src0_vec comp0
  let comp1 := vandq_s16 src1_vec comp1
  let comp2 := vandq_s16 src2_vec comp2
  let comp3 := vandq_s16 src3_vec comp3
  let result1_vec := vaddq_s16 comp0 comp1
  let result2_vec := vaddq_s16 comp2 comp3
  let diff12 := vsubq_s16 result1_vec result2_vec
  let comp0 := vcgeq_s16 diff12 zeros
  let comp1 := vcltq_s16 diff12 zeros
  let comp0 := vandq_s16 result1_vec comp0
  let comp1 := vandq_s16 result2_vec comp1
  let result := vaddq_s16 comp0 comp1
  (result1_vec, result2_vec, result)

/-- State of the NEON quad max-star loops: the target buffer and the five
pointers, as element offsets. -/
structure QuadNeonState where
  mem : List Int
  target : Nat
  src0 : Nat
  src1 : Nat
  src2 : Nat
  src3 : Nat

/-- Vector loop body of `volk_16i_x4_quad_max_star_16i_neon`. -/
def quad_neon_body (src0 src1 src2 src3 : List Int) (_i : Nat) (s : QuadNeonState) :
    Option QuadNeonState :=
  (vld1q_s16 src0 s.src0).bind fun src0_vec =>
  (vld1q_s16 src1 s.src1).bind fun src1_vec =>
  (vld1q_s16 src2 s.src2).bind fun src2_vec =>
  (vld1q_s16 src3 s.src3).bind fun src3_vec =>
    (vst1q_s16 s.mem s.target (neon_regs src0_vec src1_vec src2_vec src3_vec).2.2).map
      fun mem => ⟨mem, s.target + 8, s.src0 + 8, s.src1 + 8, s.src2 + 8, s.src3 + 8⟩

/-- Tail loop body of `volk_16i_x4_quad_max_star_16i_neon`, through the
pointers. -/
def quad_neon_tail (src0 src1 src2 src3 : List Int) (_i : Nat) (s : QuadNeonState) :
    Option QuadNeonState :=
  (readAt src0 s.src0).bind fun x0 =>
  (readAt src1 s.src1).bind fun x1 =>
  (readAt src2 s.src2).bind fun x2 =>
  (readAt src3 s.src3).bind fun x3 =>
    let temp0 := scalar_select x0 x1
    let temp1 := scalar_select x2 x3
    (writeAt s.mem s.target (scalar_select temp0 temp1)).map fun mem =>
      ⟨mem, s.target + 1, s.src0 + 1, s.src1 + 1, s.src2 + 1, s.src3 + 1⟩

/-- Model of `volk_16i_x4_quad_max_star_16i_neon`. -/
def volk_16i_x4_quad_max_star_16i_neon (target src0 src1 src2 src3 : List Int)
    (num_points : Nat) : Option (List Int) :=
  let eighth_points := num_points / 8
  ((forRange (quad_neon_body src0 src1 src2 src3) 0 eighth_points
      ⟨target, 0, 0, 0, 0, 0⟩).bind fun s =>
    forRange (quad_neon_tail src0 src1 src2 src3) (eighth_points * 8) num_points s).map
      QuadNeonState.mem

/-! ### Loop bounds, and the generic kernel on a store of buffers -/

/-- The loop bound `num_bytes >> 1` of the generic quad max-star, with
`num_bytes = num_points * 2` computed as an `unsigned int`. -/
def generic_bound (num_points : Nat) : Nat := ((num_points * 2) % 2 ^ 32) >>> 1

/-- The value `num_bytes = num_points * 2` of the SSE2 quad max-star, as an
`unsigned int`. -/
def a_sse2_num_bytes (num_points : Nat) : Nat := (num_points * 2) % 2 ^ 32

/-- The value `bound = num_bytes >> 4` of the SSE2 quad max-star. -/
def a_sse2_bound (num_points : Nat) : Nat := a_sse2_num_bytes num_points >>> 4

/-- The value `leftovers = (num_bytes >> 1) & 7` of the SSE2 quad max-star. -/
def a_sse2_leftovers (num_points : Nat) : Nat := (a_sse2_num_bytes num_points >>> 1) &&& 7

/-- The scalar loop body of the generic quad max-star on a store of buffers:
each pointer is the index of a buffer of the store, so that two equal pointers
name the very same buffer. -/
def quad_scalar_body_store (target src0 src1 src2 src3 : Nat) (i : Nat)
    (store : List (List Int)) : Option (List (List Int)) :=
  (store[src0]?.bind fun m => readAt m i).bind fun x0 =>
  (store[src1]?.bind fun m => readAt m i).bind fun x1 =>
  (store[src2]?.bind fun m => readAt m i).bind fun x2 =>
  (store[src3]?.bind fun m => readAt m i).bind fun x3 =>
    let temp0 := scalar_select x0 x1
    let temp1 := scalar_select x2 x3
    (store[target]?.bind fun m => writeAt m i (scalar_select temp0 temp1)).map fun m =>
      store.set target m

/-- Model of `volk_16i_x4_quad_max_star_16i_generic` run on a store of buffers,
which lets `target` be the same buffer as an input. -/
def volk_16i_x4_quad_max_star_16i_generic_store (target src0 src1 src2 src3 : Nat)
    (num_points : Nat) (store : List (List Int)) : Option (List (List Int)) :=
  let num_bytes := (num_points * 2) % 2 ^ 32
  let bound := num_bytes >>> 1
  forRange (quad_scalar_body_store target src0 src1 src2 src3) 0 bound store

/-! ## RVV gather-index construction of the byte swap -/

/-- The four elements of width `b` held by each element of four times that
width, least significant first: a reinterpretation of a vector register to a
narrower element type. -/
def narrow4 (b : Nat) : List Nat → List Nat
  | [] => []
  | w :: ws => w % b :: w / b % b :: w / (b * b) % b :: w / (b * b * b) % b :: narrow4 b ws

/-- The elements of four times the width `b` held by a list of elements of
width `b`, four at a time, least significant first: a reinterpretation of a
vector register to a wider element type. -/
def widen4 (b : Nat) : List Nat → List Nat
  | x0 :: x1 :: x2 :: x3 :: rest =>
    (x0 + b * x1 + b * b * x2 + b * b * b * x3) :: widen4 b rest
  | _ => []

/-- Model of `__riscv_vid_v_u8m1`: the indices `0, 1, ..., vl - 1` as bytes. -/
def riscv_vid_v_u8m1 (vl : Nat) : List Nat := (List.range vl).map (· % 256)

/-- Model of `__riscv_vid_v_u16m2`: the indices `0, 1, ..., vl - 1` as 16-bit
values. -/
def riscv_vid_v_u16m2 (vl : Nat) : List Nat := (List.range vl).map (· % 65536)

/-- Model of `__riscv_vreinterpret_u32m1` of a byte vector. -/
def riscv_vreinterpret_u32m1 (v : List Nat) : List Nat := widen4 256 v

/-- Model of `__riscv_vreinterpret_u8m1` of a vector of 32-bit words. -/
def riscv_vreinterpret_u8m1 (v : List Nat) : List Nat := narrow4 256 v

/-- Model of `__riscv_vreinterpret_u64m2` of a vector of 16-bit values. -/
def riscv_vreinterpret_u64m2 (v : List Nat) : List Nat := widen4 65536 v

/-- Model of `__riscv_vreinterpret_u16m2` of a vector of 64-bit words. -/
def riscv_vreinterpret_u16m2 (v : List Nat) : List Nat := narrow4 65536 v

/-- Model of `__riscv_vsub` of a vector of 32-bit words and a scalar: the first
`vl` elements become `a - x` modulo `2 ^ 32`, the others are kept. -/
def riscv_vsub_u32 (v : List Nat) (x vl : Nat) : List Nat :=
  (v.take vl).map (fun a => (a + 2 ^ 32 - x % 2 ^ 32) % 2 ^ 32) ++ v.drop vl

/-- Model of `__riscv_vsub` of a vector of 64-bit words and a scalar: the first
`vl` elements become `a - x` modulo `2 ^ 64`, the others are kept. -/
def riscv_vsub_u64 (v : List Nat) (x vl : Nat) : List Nat :=
  (v.take vl).map (fun a => (a + 2 ^ 64 - x % 2 ^ 64) % 2 ^ 64) ++ v.drop vl

/-- The index vector `vidx` of `volk_32u_byteswap_rvv` in the branch
`vlmax <= 256`, for `vlmax` the value of `__riscv_vsetvlmax_e8m1()`. -/
def rvv_vidx_u8 (vlmax : Nat) : List Nat :=
  riscv_vreinterpret_u8m1
    (riscv_vsub_u32 (riscv_vreinterpret_u32m1 (riscv_vid_v_u8m1 vlmax))
      (0x3020100 - 0x10203) (vlmax / 4))

/-- The index vector `vidx` of `volk_32u_byteswap_rvv` in the branch
`vlmax > 256`, for `vlmax` the value of `__riscv_vsetvlmax_e8m1()`. -/
def rvv_vidx_u16 (vlmax : Nat) : List Nat :=
  riscv_vreinterpret_u16m2
    (riscv_vsub_u64 (riscv_vreinterpret_u64m2 (riscv_vid_v_u16m2 vlmax))
      (0x3000200010000 - 0x100020003) (vlmax / 4))

/-! ## Specification vocabulary -/

/-- The buffer `orig` with its first `k` elements replaced by the first `k`
elements of `vals`. -/
def overwritePrefix {α : Type} (vals orig : List α) (k : Nat) : List α :=
  vals.take k ++ orig.drop k

/-- The four bytes of a word, most significant first. -/
def wordBytesRev (w : Nat) : List Nat :=
  [w / 16777216 % 256, w / 65536 % 256, w / 256 % 256, w % 256]

/-- The buffer left by a byte swap of the first `n` words of `buf`. -/
def swapped (buf : List Nat) (n : Nat) : List Nat :=
  overwritePrefix (buf.map byteswap_scalar) buf n

/-- The range of a `short`. -/
abbrev isShort (x : Int) : Prop := -32768 ≤ x ∧ x ≤ 32767

/-- The selection made by one lane of the SSE2 loop. -/
def sse2_select (x y : Int) : Int := if toShort (y - x) > 0 then y else x

/-- The selection made by one lane of the NEON loop. -/
def neon_select (x y : Int) : Int := if toShort (x - y) ≥ 0 then x else y

/-- The list of the nested selections `f (f a b) (f c d)` over four buffers. -/
def quadList (f : Int → Int → Int) (src0 src1 src2 src3 : List Int) : List Int :=
  List.zipWith f (List.zipWith f src0 src1) (List.zipWith f src2 src3)

/-- The target buffer left by a quad max-star over the first `n` positions. -/
def quadResult (target src0 src1 src2 src3 : List Int) (n : Nat) : List Int :=
  overwritePrefix (quadList scalar_select src0 src1 src2 src3) target n

/-- The values written by the SSE2 quad max-star: the selections of the vector
loop on the first `k` positions, those of the scalar tail after them. -/
def sse2QuadVals (src0 src1 src2 src3 : List Int) (k : Nat) : List Int :=
  (quadList sse2_select src0 src1 src2 src3).take k
    ++ (quadList scalar_select src0 src1 src2 src3).drop k

/-! ## Lemmas -/

theorem and_shl_mask (x k : Nat) : x &&& (0xff <<< k) = (x / 2 ^ k % 256) * 2 ^ k := by
  apply Nat.eq_of_testBit_eq
  intro i
  rw [← Nat.shiftLeft_eq, ← Nat.shiftRight_eq_div_pow]
  have h : (255 : Nat) = 2 ^ 8 - 1 := by norm_num
  have h2 : (256 : Nat) = 2 ^ 8 := by norm_num
  rw [h, h2]
  simp only [Nat.testBit_and, Nat.testBit_shiftLeft, Nat.testBit_mod_two_pow,
    Nat.testBit_shiftRight, Nat.testBit_two_pow_sub_one]
  by_cases hk : k ≤ i
  · have : k + (i - k) = i := by omega
    simp [hk, this, Bool.and_comm]
  · simp [hk]

theorem or_eq_add (a b k : Nat) (h : a < 2 ^ k) : a ||| (b * 2 ^ k) = a + b * 2 ^ k := by
  rw [Nat.or_comm, Nat.add_comm, Nat.mul_comm, Nat.mul_add_lt_is_or h]

theorem byteswap_scalar_arith (w : Nat) (hw : w < 2 ^ 32) :
    byteswap_scalar w = w / 16777216 + (w / 65536 % 256) * 256 + (w / 256 % 256) * 65536
      + (w % 256) * 16777216 := by
  unfold byteswap_scalar
  have e1 := and_shl_mask (w >>> 24) 0
  have e2 := and_shl_mask (w >>> 8) 8
  have e3 := and_shl_mask ((w <<< 8) % 2 ^ 32) 16
  have e4 := and_shl_mask ((w <<< 24) % 2 ^ 32) 24
  simp only [Nat.shiftLeft_eq, Nat.shiftRight_eq_div_pow] at e1 e2 e3 e4 ⊢
  norm_num at e1 e2 e3 e4 ⊢
  rw [e1, e2, e3, e4]
  have t1 : w / 16777216 % 256 = w / 16777216 := by omega
  have t2 : w / 256 / 256 % 256 = w / 65536 % 256 := by omega
  have t3 : w * 256 % 4294967296 / 65536 % 256 = w / 256 % 256 := by omega
  have t4 : w * 16777216 % 4294967296 / 16777216 % 256 = w % 256 := by omega
  rw [t1, t2, t3, t4]
  have o1 := or_eq_add (w / 16777216) (w / 65536 % 256) 8 (by omega)
  have o2 := or_eq_add (w / 16777216 + w / 65536 % 256 * 256) (w / 256 % 256) 16 (by omega)
  have o3 := or_eq_add (w / 16777216 + w / 65536 % 256 * 256 + w / 256 % 256 * 65536)
    (w % 256) 24 (by omega)
  norm_num at o1 o2 o3
  rw [o1, o2, o3]

theorem forLoop_inv {σ : Type} (body : Nat → σ → Option σ) (P : Nat → σ → Prop) :
    ∀ (n lo : Nat) (s : σ), P lo s →
      (∀ i t, lo ≤ i → i < lo + n → P i t → ∃ t', body i t = some t' ∧ P (i + 1) t') →
      ∃ s', forLoop body n lo s = some s' ∧ P (lo + n) s' := by
  intro n
  induction n with
  | zero => intro lo s h0 _; exact ⟨s, rfl, h0⟩
  | succ n ih =>
    intro lo s h0 hstep
    obtain ⟨t, ht, hP⟩ := hstep lo s (Nat.le_refl _) (by omega) h0
    obtain ⟨s', hs', hP'⟩ := ih (lo + 1) t hP
      (fun i u h1 h2 hu => hstep i u (by omega) (by omega) hu)
    refine ⟨s', ?_, ?_⟩
    · simp [forLoop, ht, hs']
    · have : lo + (n + 1) = lo + 1 + n := by omega
      rw [this]; exact hP'

theorem forRange_inv {σ : Type} (body : Nat → σ → Option σ) (P : Nat → σ → Prop)
    (lo hi : Nat) (s : σ) (hle : lo ≤ hi) (h0 : P lo s)
    (hstep : ∀ i t, lo ≤ i → i < hi → P i t → ∃ t', body i t = some t' ∧ P (i + 1) t') :
    ∃ s', forRange body lo hi s = some s' ∧ P hi s' := by
  obtain ⟨s', h1, h2⟩ := forLoop_inv body P (hi - lo) lo s h0
    (fun i t a b c => hstep i t a (by omega) c)
  refine ⟨s', h1, ?_⟩
  have : lo + (hi - lo) = hi := by omega
  rw [this] at h2; exact h2

section ow

variable {α : Type}

theorem overwritePrefix_zero (vals orig : List α) : overwritePrefix vals orig 0 = orig := by
  simp [overwritePrefix]

theorem length_overwritePrefix (vals orig : List α) (k : Nat) (hv : k ≤ vals.length)
    (ho : k ≤ orig.length) : (overwritePrefix vals orig k).length = orig.length := by
  simp [overwritePrefix]; omega

theorem getElem?_overwritePrefix (vals orig : List α) (k j : Nat) (hv : k ≤ vals.length) :
    (overwritePrefix vals orig k)[j]? = if j < k then vals[j]? else orig[j]? := by
  unfold overwritePrefix
  have hl : (vals.take k).length = k := by simp; omega
  by_cases hj : j < k
  · rw [List.getElem?_append_left (by omega)]
    simp [hj, List.getElem?_take]
  · rw [List.getElem?_append_right (by omega)]
    simp only [hj, if_false, hl, List.getElem?_drop]
    congr 1; omega

theorem readAt_overwritePrefix (vals orig : List α) (k : Nat) (hv : k ≤ vals.length) :
    readAt (overwritePrefix vals orig k) k = orig[k]? := by
  simp [readAt, getElem?_overwritePrefix vals orig k k hv]

theorem writeAt_overwritePrefix (vals orig : List α) (k : Nat) (v : α)
    (ho : k < orig.length) (hv : vals[k]? = some v) :
    writeAt (overwritePrefix vals orig k) k v = some (overwritePrefix vals orig (k + 1)) := by
  have hk : k < vals.length := by
    rcases Nat.lt_or_ge k vals.length with h | h
    · exact h
    · rw [List.getElem?_eq_none h] at hv; cases hv
  have hlen := length_overwritePrefix vals orig k (by omega) (by omega)
  unfold writeAt
  rw [if_pos (by omega)]
  congr 1
  apply List.ext_getElem?
  intro j
  rw [List.getElem?_set, getElem?_overwritePrefix _ _ _ _ (by omega),
    getElem?_overwritePrefix _ _ _ _ (by omega), hlen]
  by_cases h1 : k = j
  · subst h1; simp [ho, hv]
  · simp only [h1, if_false]
    by_cases h2 : j < k
    · simp [h2, show j < k + 1 by omega]
    · simp [h2, show ¬ j < k + 1 by omega]

theorem readBlock_overwritePrefix (vals orig : List α) (k n : Nat) (hv : k ≤ vals.length)
    (ho : k + n ≤ orig.length) :
    readBlock (overwritePrefix vals orig k) k n = some ((orig.drop k).take n) := by
  have hlen := length_overwritePrefix vals orig k (by omega) (by omega)
  unfold readBlock
  rw [if_pos (by omega)]
  congr 1
  unfold overwritePrefix
  have hl : (vals.take k).length = k := by simp; omega
  rw [List.drop_append_of_le_length (by omega), List.drop_of_length_le (by omega)]
  simp

theorem writeBlock_overwritePrefix (vals orig : List α) (k n : Nat)
    (hv : k + n ≤ vals.length) (ho : k + n ≤ orig.length) :
    writeBlock (overwritePrefix vals orig k) k ((vals.drop k).take n)
      = some (overwritePrefix vals orig (k + n)) := by
  have hlen := length_overwritePrefix vals orig k (by omega) (by omega)
  have hl : ((vals.drop k).take n).length = n := by simp; omega
  unfold writeBlock
  rw [if_pos (by omega)]
  congr 1
  apply List.ext_getElem?
  intro j
  rw [getElem?_overwritePrefix _ _ _ _ (by omega), hl]
  simp only [List.getElem?_append, List.length_append, List.length_take, hlen, hl,
    List.getElem?_take, List.getElem?_drop, getElem?_overwritePrefix vals orig k _ (by omega : k ≤ vals.length)]
  have hm : min k orig.length = k := by omega
  simp only [hm]
  by_cases h1 : j < k
  · simp [h1, show j < k + n by omega]
  · by_cases h2 : j < k + n
    · simp [h1, h2, show j - k < n by omega, show k + (j - k) = j by omega]
    · simp [h1, h2, show ¬ (j - k < n) by omega, show ¬ (j < k + n) by omega]
      have : ¬ (k + n + (j - (k + n)) < k) := by omega
      simp [this]
      congr 1; omega

end ow

theorem and_ff (x : Nat) : x &&& 0xff = x % 256 := by
  have h := and_shl_mask x 0
  simpa using h

theorem and_ff00 (x : Nat) : x &&& 0xff00 = x / 256 % 256 * 256 := by
  have h := and_shl_mask x 8
  have e : (0xff : Nat) <<< 8 = 0xff00 := by decide
  rw [e] at h
  simpa using h

theorem and_ff0000 (x : Nat) : x &&& 0xff0000 = x / 65536 % 256 * 65536 := by
  have h := and_shl_mask x 16
  have e : (0xff : Nat) <<< 16 = 0xff0000 := by decide
  rw [e] at h
  simpa using h

theorem and_ff000000 (x : Nat) : x &&& 0xff000000 = x / 16777216 % 256 * 16777216 := by
  have h := and_shl_mask x 24
  have e : (0xff : Nat) <<< 24 = 0xff000000 := by decide
  rw [e] at h
  simpa using h

theorem byteswap_scalar_lt (w : Nat) (hw : w < 2 ^ 32) : byteswap_scalar w < 2 ^ 32 := by
  rw [byteswap_scalar_arith w hw]; omega

theorem bytes_of_sum (b0 b1 b2 b3 : Nat) (h0 : b0 < 256) (h1 : b1 < 256) (h2 : b2 < 256)
    (h3 : b3 < 256) :
    (b0 + 256 * b1 + 65536 * b2 + 16777216 * b3) % 256 = b0 ∧
    (b0 + 256 * b1 + 65536 * b2 + 16777216 * b3) / 256 % 256 = b1 ∧
    (b0 + 256 * b1 + 65536 * b2 + 16777216 * b3) / 65536 % 256 = b2 ∧
    (b0 + 256 * b1 + 65536 * b2 + 16777216 * b3) / 16777216 = b3 ∧
    (b0 + 256 * b1 + 65536 * b2 + 16777216 * b3) / 16777216 % 256 = b3 := by
  refine ⟨by omega, by omega, by omega, by omega, by omega⟩

theorem sum_of_bytes (w : Nat) (hw : w < 2 ^ 32) :
    w = w % 256 + 256 * (w / 256 % 256) + 65536 * (w / 65536 % 256)
      + 16777216 * (w / 16777216 % 256) := by
  omega

theorem byteswap_scalar_bytes (w : Nat) (hw : w < 2 ^ 32) :
    byteswap_scalar w = w / 16777216 % 256 + 256 * (w / 65536 % 256)
      + 65536 * (w / 256 % 256) + 16777216 * (w % 256) := by
  rw [byteswap_scalar_arith w hw]; omega

theorem byteswap_scalar_invol (w : Nat) (hw : w < 2 ^ 32) :
    byteswap_scalar (byteswap_scalar w) = w := by
  have h := byteswap_scalar_lt w hw
  rw [byteswap_scalar_bytes _ h, byteswap_scalar_bytes w hw]
  obtain ⟨e0, e1, e2, _, e3⟩ := bytes_of_sum (w / 16777216 % 256) (w / 65536 % 256)
    (w / 256 % 256) (w % 256) (Nat.mod_lt _ (by norm_num)) (Nat.mod_lt _ (by norm_num))
    (Nat.mod_lt _ (by norm_num)) (Nat.mod_lt _ (by norm_num))
  rw [e0, e1, e2, e3]
  exact (sum_of_bytes w hw).symm

theorem or_shuffle (A B C D : Nat) : (A ||| D) ||| B ||| C = D ||| C ||| B ||| A := by
  ac_rfl

theorem sse2_lane (x : Nat) (hx : x < 2 ^ 32) :
    ((x <<< 24) % 2 ^ 32 ||| x >>> 24) ||| ((x <<< 8) % 2 ^ 32 &&& 0x00FF0000)
      ||| (x >>> 8 &&& 0x0000FF00) = byteswap_scalar x := by
  unfold byteswap_scalar
  have e1 : (x >>> 24) &&& 0xff = x >>> 24 := by
    rw [and_ff, Nat.shiftRight_eq_div_pow]; omega
  have e4 : ((x <<< 24) % 2 ^ 32) &&& 0xff000000 = (x <<< 24) % 2 ^ 32 := by
    rw [and_ff000000, Nat.shiftLeft_eq]; omega
  rw [e1, e4]
  exact or_shuffle _ _ _ _

theorem sse2_swap_eq (chunk : List Nat) (hl : chunk.length = 4) (hb : ∀ w ∈ chunk, w < 2 ^ 32) :
    sse2_swap chunk = chunk.map byteswap_scalar := by
  match chunk, hl, hb with
  | [a, b, c, d], _, hb =>
    simp only [List.mem_cons, List.mem_singleton, forall_eq_or_imp, forall_eq, List.not_mem_nil] at hb
    simp only [sse2_swap, mm_set1_epi32, mm_slli_epi32, mm_srli_epi32, mm_or_si128, mm_and_si128,
      List.map, List.zipWith]
    rw [sse2_lane a hb.1, sse2_lane b hb.2.1, sse2_lane c hb.2.2.1, sse2_lane d hb.2.2.2.1]

theorem avx2_shuffle_eq (w0 w1 w2 w3 w4 w5 w6 w7 : Nat) :
    mm256_shuffle_epi8 (toBytes [w0, w1, w2, w3, w4, w5, w6, w7]) shuffleVector
      = wordBytesRev w0 ++ wordBytesRev w1 ++ wordBytesRev w2 ++ wordBytesRev w3 ++
        wordBytesRev w4 ++ wordBytesRev w5 ++ wordBytesRev w6 ++ wordBytesRev w7 := by
  rfl

theorem fromBytes_rev (w : Nat) (hw : w < 2 ^ 32) (rest : List Nat) :
    fromBytes (wordBytesRev w ++ rest) = byteswap_scalar w :: fromBytes rest := by
  simp only [wordBytesRev, List.cons_append, List.nil_append, fromBytes]
  rw [byteswap_scalar_bytes w hw]
  rfl

theorem avx2_chunk (chunk : List Nat) (hl : chunk.length = 8) (hb : ∀ w ∈ chunk, w < 2 ^ 32) :
    fromBytes (mm256_shuffle_epi8 (toBytes chunk) shuffleVector) = chunk.map byteswap_scalar := by
  match chunk, hl, hb with
  | [w0, w1, w2, w3, w4, w5, w6, w7], _, hb =>
    simp only [List.mem_cons, List.mem_singleton, forall_eq_or_imp, forall_eq, List.not_mem_nil] at hb
    obtain ⟨h0, h1, h2, h3, h4, h5, h6, h7, _⟩ := hb
    rw [avx2_shuffle_eq]
    simp only [List.append_assoc]
    rw [fromBytes_rev w0 h0, fromBytes_rev w1 h1, fromBytes_rev w2 h2, fromBytes_rev w3 h3,
      fromBytes_rev w4 h4, fromBytes_rev w5 h5, fromBytes_rev w6 h6]
    have := fromBytes_rev w7 h7 []
    simp only [List.append_nil] at this
    rw [this]
    rfl

theorem neon_lookups :
    vcreate_u8 74609667900706840 = [24, 16, 8, 0, 25, 17, 9, 1] ∧
    vcreate_u8 219290013576860186 = [26, 18, 10, 2, 27, 19, 11, 3] ∧
    vcreate_u8 363970359253013532 = [28, 20, 12, 4, 29, 21, 13, 5] ∧
    vcreate_u8 508650704929166878 = [30, 22, 14, 6, 31, 23, 15, 7] := by
  decide

theorem neon_tbl_eq (w0 w1 w2 w3 w4 w5 w6 w7 : Nat) :
    let ws := [w0, w1, w2, w3, w4, w5, w6, w7]
    let input_table := (List.range 4).map fun k => (List.range 8).map fun m =>
      (toBytes ws).getD (4 * m + k) 0
    vtbl4_u8 input_table (vcreate_u8 74609667900706840) = wordBytesRev w0 ++ wordBytesRev w1 ∧
    vtbl4_u8 input_table (vcreate_u8 219290013576860186) = wordBytesRev w2 ++ wordBytesRev w3 ∧
    vtbl4_u8 input_table (vcreate_u8 363970359253013532) = wordBytesRev w4 ++ wordBytesRev w5 ∧
    vtbl4_u8 input_table (vcreate_u8 508650704929166878) = wordBytesRev w6 ++ wordBytesRev w7 := by
  intro ws input_table
  refine ⟨rfl, rfl, rfl, rfl⟩

theorem readBlock_some {α : Type} (mem : List α) (p n : Nat) (chunk : List α)
    (h : readBlock mem p n = some chunk) :
    p + n ≤ mem.length ∧ chunk = (mem.drop p).take n ∧ chunk.length = n := by
  unfold readBlock at h
  split at h
  · rename_i hle
    have hc : (mem.drop p).take n = chunk := by simpa using h
    refine ⟨hle, hc.symm, ?_⟩
    rw [← hc]; simp; omega
  · cases h

theorem writeBlock_append {α : Type} (mem : List α) (p : Nat) (u v : List α)
    (h : p + u.length + v.length ≤ mem.length) :
    (writeBlock mem p u).bind (fun m => writeBlock m (p + u.length) v)
      = writeBlock mem p (u ++ v) := by
  unfold writeBlock
  rw [if_pos (by omega), if_pos (by simp; omega)]
  simp only [Option.some_bind]
  rw [if_pos (by simp; omega)]
  congr 1
  have h1 : (List.take p mem).length = p := by simp; omega
  have e1 : List.take (p + u.length) (List.take p mem ++ u ++ List.drop (p + u.length) mem)
      = List.take p mem ++ u := by
    rw [List.take_append_of_le_length (by simp; omega)]
    rw [List.take_of_length_le (by simp)]
  have e2 : List.drop (p + u.length + v.length)
      (List.take p mem ++ u ++ List.drop (p + u.length) mem)
      = List.drop (p + (u ++ v).length) mem := by
    have : p + u.length + v.length = (List.take p mem ++ u).length + v.length := by
      simp; omega
    rw [this, List.drop_append, List.drop_drop]
    congr 1
    simp; omega
  rw [e1, e2]
  simp [List.append_assoc]

theorem scalar_loop (buf : List Nat) (lo hi : Nat) (hle : lo ≤ hi) (hh : hi ≤ buf.length) :
    forRange scalar_body lo hi ⟨swapped buf lo, lo⟩ = some ⟨swapped buf hi, hi⟩ := by
  obtain ⟨s', h1, h2⟩ := forRange_inv scalar_body
    (fun i s => s = ⟨swapped buf i, i⟩) lo hi _ hle rfl (by
      intro i t hi1 hi2 ht
      subst ht
      have hlt : i < buf.length := by omega
      refine ⟨⟨swapped buf (i + 1), i + 1⟩, ?_, rfl⟩
      simp only [scalar_body, swapped]
      rw [readAt_overwritePrefix _ _ _ (by simp; omega)]
      rw [List.getElem?_eq_getElem hlt]
      simp only [Option.some_bind]
      rw [writeAt_overwritePrefix _ _ _ _ hlt (by simp [List.getElem?_eq_getElem hlt])]
      rfl)
  rw [h1, h2]

theorem chunk_loop (W : Nat) (body : Nat → SwapState → Option SwapState)
    (hbody : ∀ i mem p chunk, readBlock mem p W = some chunk → (∀ w ∈ chunk, w < 2 ^ 32) →
      body i ⟨mem, p⟩ = (writeBlock mem p (chunk.map byteswap_scalar)).map
        (fun m => ⟨m, p + W⟩))
    (buf : List Nat) (hb : ∀ w ∈ buf, w < 2 ^ 32) (m : Nat) (hm : m * W ≤ buf.length) :
    forRange body 0 m ⟨buf, 0⟩ = some ⟨swapped buf (m * W), m * W⟩ := by
  obtain ⟨s', h1, h2⟩ := forRange_inv body
    (fun i s => s = ⟨swapped buf (i * W), i * W⟩) 0 m ⟨buf, 0⟩ (Nat.zero_le _)
    (by simp [swapped, overwritePrefix_zero]) (by
      intro i t _ hi2 ht
      subst ht
      have hle : (i + 1) * W ≤ m * W := Nat.mul_le_mul_right W (by omega)
      have hs : (i + 1) * W = i * W + W := Nat.succ_mul i W
      refine ⟨⟨swapped buf ((i + 1) * W), (i + 1) * W⟩, ?_, rfl⟩
      have hr := readBlock_overwritePrefix (buf.map byteswap_scalar) buf (i * W) W
        (by simp; omega) (by omega)
      unfold swapped
      rw [hbody i _ _ _ hr (fun w hw => hb w (List.mem_of_mem_drop (List.mem_of_mem_take hw)))]
      rw [List.map_take, List.map_drop]
      rw [writeBlock_overwritePrefix _ _ _ _ (by simp; omega) (by omega), hs]
      rfl)
  rw [h1, h2]

theorem vector_variant (W : Nat) (body : Nat → SwapState → Option SwapState)
    (hbody : ∀ i mem p chunk, readBlock mem p W = some chunk → (∀ w ∈ chunk, w < 2 ^ 32) →
      body i ⟨mem, p⟩ = (writeBlock mem p (chunk.map byteswap_scalar)).map
        (fun m => ⟨m, p + W⟩))
    (buf : List Nat) (hb : ∀ w ∈ buf, w < 2 ^ 32) (n : Nat) (hn : n ≤ buf.length) :
    ((forRange body 0 (n / W) ⟨buf, 0⟩).bind fun s =>
      forRange scalar_body (n / W * W) n s).map SwapState.mem = some (swapped buf n) := by
  have hle : n / W * W ≤ n := Nat.div_mul_le_self n W
  rw [chunk_loop W body hbody buf hb (n / W) (by omega)]
  simp only [Option.some_bind]
  rw [scalar_loop buf _ _ hle hn]
  rfl

theorem generic_eq (buf : List Nat) (n : Nat) (hn : n ≤ buf.length) :
    volk_32u_byteswap_generic buf n = some (swapped buf n) := by
  unfold volk_32u_byteswap_generic
  have := scalar_loop buf 0 n (Nat.zero_le _) hn
  simp only [swapped, overwritePrefix_zero] at this
  rw [this]
  rfl

theorem u_sse2_eq (buf : List Nat) (hb : ∀ w ∈ buf, w < 2 ^ 32) (n : Nat) (hn : n ≤ buf.length) :
    volk_32u_byteswap_u_sse2 buf n = some (swapped buf n) := by
  apply vector_variant 4 u_sse2_body _ buf hb n hn
  intro i mem p chunk hr hc
  simp only [u_sse2_body, mm_loadu_si128, mm_storeu_si128, hr, Option.some_bind]
  rw [sse2_swap_eq chunk (readBlock_some _ _ _ _ hr).2.2 hc]

theorem a_sse2_eq (buf : List Nat) (hb : ∀ w ∈ buf, w < 2 ^ 32) (n : Nat) (hn : n ≤ buf.length) :
    volk_32u_byteswap_a_sse2 buf n = some (swapped buf n) := by
  apply vector_variant 4 a_sse2_body _ buf hb n hn
  intro i mem p chunk hr hc
  simp only [a_sse2_body, mm_load_si128_epi32, mm_store_si128_epi32, hr, Option.some_bind]
  rw [sse2_swap_eq chunk (readBlock_some _ _ _ _ hr).2.2 hc]

theorem u_avx2_eq (buf : List Nat) (hb : ∀ w ∈ buf, w < 2 ^ 32) (n : Nat) (hn : n ≤ buf.length) :
    volk_32u_byteswap_u_avx2 buf n = some (swapped buf n) := by
  apply vector_variant 8 u_avx2_body _ buf hb n hn
  intro i mem p chunk hr hc
  simp only [u_avx2_body, mm256_loadu_si256, mm256_storeu_si256, hr, Option.map_some',
    Option.some_bind]
  rw [avx2_chunk chunk (readBlock_some _ _ _ _ hr).2.2 hc]

theorem a_avx2_eq (buf : List Nat) (hb : ∀ w ∈ buf, w < 2 ^ 32) (n : Nat) (hn : n ≤ buf.length) :
    volk_32u_byteswap_a_avx2 buf n = some (swapped buf n) := by
  apply vector_variant 8 a_avx2_body _ buf hb n hn
  intro i mem p chunk hr hc
  simp only [a_avx2_body, mm256_load_si256, mm256_store_si256, hr, Option.map_some',
    Option.some_bind]
  rw [avx2_chunk chunk (readBlock_some _ _ _ _ hr).2.2 hc]

theorem writeBlock_ok {α : Type} (mem : List α) (p : Nat) (u : List α)
    (h : p + u.length ≤ mem.length) :
    ∃ m, writeBlock mem p u = some m ∧ m.length = mem.length := by
  refine ⟨_, if_pos h, ?_⟩
  simp
  omega

theorem fromBytes_rev2 (a b : Nat) (ha : a < 2 ^ 32) (hb : b < 2 ^ 32) :
    fromBytes (wordBytesRev a ++ wordBytesRev b) = [byteswap_scalar a, byteswap_scalar b] := by
  rw [fromBytes_rev a ha]
  have := fromBytes_rev b hb []
  simp only [List.append_nil] at this
  rw [this]
  rfl

theorem neon_body_eq (i : Nat) (mem : List Nat) (p : Nat) (chunk : List Nat)
    (hr : readBlock mem p 8 = some chunk) (hc : ∀ w ∈ chunk, w < 2 ^ 32) :
    neon_body i ⟨mem, p⟩ = (writeBlock mem p (chunk.map byteswap_scalar)).map
      (fun m => ⟨m, p + 8⟩) := by
  obtain ⟨hlen, _, hl⟩ := readBlock_some _ _ _ _ hr
  match chunk, hl, hc, hr with
  | [w0, w1, w2, w3, w4, w5, w6, w7], _, hc, hr =>
    simp only [List.mem_cons, List.mem_singleton, forall_eq_or_imp, forall_eq,
      List.not_mem_nil] at hc
    obtain ⟨h0, h1, h2, h3, h4, h5, h6, h7, _⟩ := hc
    obtain ⟨t01, t23, t45, t67⟩ := neon_tbl_eq w0 w1 w2 w3 w4 w5 w6 w7
    simp only [neon_body, vld4_u8, hr, Option.map_some', Option.some_bind, vst1_u8]
    rw [t01, t23, t45, t67, fromBytes_rev2 w0 w1 h0 h1, fromBytes_rev2 w2 w3 h2 h3,
      fromBytes_rev2 w4 w5 h4 h5, fromBytes_rev2 w6 w7 h6 h7]
    obtain ⟨m1, e1, l1⟩ := writeBlock_ok mem p [byteswap_scalar w0, byteswap_scalar w1]
      (by simp; omega)
    obtain ⟨m2, e2, l2⟩ := writeBlock_ok m1 (p + 2) [byteswap_scalar w2, byteswap_scalar w3]
      (by simp; omega)
    obtain ⟨m3, e3, l3⟩ := writeBlock_ok m2 (p + 4) [byteswap_scalar w4, byteswap_scalar w5]
      (by simp; omega)
    obtain ⟨m4, e4, _⟩ := writeBlock_ok m3 (p + 6) [byteswap_scalar w6, byteswap_scalar w7]
      (by simp; omega)
    rw [e1, Option.some_bind, e2, Option.some_bind, e3, Option.some_bind, e4]
    have a1 := writeBlock_append mem p [byteswap_scalar w0, byteswap_scalar w1]
      [byteswap_scalar w2, byteswap_scalar w3, byteswap_scalar w4, byteswap_scalar w5,
        byteswap_scalar w6, byteswap_scalar w7] (by simp; omega)
    have a2 := writeBlock_append m1 (p + 2) [byteswap_scalar w2, byteswap_scalar w3]
      [byteswap_scalar w4, byteswap_scalar w5, byteswap_scalar w6, byteswap_scalar w7]
      (by simp; omega)
    have a3 := writeBlock_append m2 (p + 4) [byteswap_scalar w4, byteswap_scalar w5]
      [byteswap_scalar w6, byteswap_scalar w7] (by simp; omega)
    rw [e3] at a3
    rw [e2] at a2
    rw [e1] at a1
    simp only [Option.some_bind, List.length_cons, List.length_nil, List.cons_append,
      List.nil_append] at a1 a2 a3
    rw [e4] at a3
    rw [← a3] at a2
    rw [← a2] at a1
    simp only [List.map]
    rw [← a1]

theorem neon_eq (buf : List Nat) (hb : ∀ w ∈ buf, w < 2 ^ 32) (n : Nat) (hn : n ≤ buf.length) :
    volk_32u_byteswap_neon buf n = some (swapped buf n) :=
  vector_variant 8 neon_body neon_body_eq buf hb n hn

theorem toBits16_lt (x : Int) : toBits16 x < 65536 := by
  unfold toBits16; omega

theorem ofBits16_toBits16 (x : Int) (hx : isShort x) : ofBits16 (toBits16 x) = x := by
  unfold isShort at hx
  unfold ofBits16 toBits16
  split <;> omega

theorem ofBits16_sub16 (a b : Int) :
    ofBits16 (sub16 (toBits16 a) (toBits16 b)) = toShort (a - b) := by
  unfold ofBits16 sub16 toBits16 toShort
  split <;> omega

theorem and_ffff (x : Nat) (hx : x < 65536) : x &&& 0xFFFF = x := by
  have := Nat.and_pow_two_sub_one_eq_mod x 16
  norm_num at this
  rw [this]; omega

theorem ffff_and (x : Nat) (hx : x < 65536) : 0xFFFF &&& x = x := by
  rw [Nat.and_comm]; exact and_ffff x hx

theorem sse2_lane_select (a b : Int) (z : Nat) (hz : z = 0) :
    add16 (cmpgt16 (sub16 (toBits16 b) (toBits16 a)) z &&& toBits16 b)
      (andnot16 (cmpgt16 (sub16 (toBits16 b) (toBits16 a)) z) (toBits16 a))
      = toBits16 (sse2_select a b) := by
  subst hz
  have ha := toBits16_lt a
  have hb := toBits16_lt b
  have h0 : ofBits16 0 = 0 := by decide
  unfold cmpgt16 sse2_select andnot16 add16
  rw [ofBits16_sub16, h0]
  by_cases h : toShort (b - a) > 0
  · simp only [h, if_true, ffff_and _ hb]
    have : (65535 : Nat) ^^^ 65535 = 0 := by decide
    rw [this, Nat.zero_and]; omega
  · simp only [h, if_false, Nat.zero_and]
    have : (0 : Nat) ^^^ 65535 = 65535 := by decide
    rw [this, ffff_and _ ha]; omega

theorem neon_lane_select (a b : Int) :
    add16 (toBits16 a &&& cmpge16 (sub16 (toBits16 a) (toBits16 b)) 0)
      (toBits16 b &&& cmplt16 (sub16 (toBits16 a) (toBits16 b)) 0)
      = toBits16 (neon_select a b) := by
  have ha := toBits16_lt a
  have hb := toBits16_lt b
  have h0 : ofBits16 0 = 0 := by decide
  unfold cmpge16 cmplt16 neon_select add16
  rw [ofBits16_sub16, h0]
  by_cases h : toShort (a - b) ≥ 0
  · have h2 : ¬ toShort (a - b) < 0 := by omega
    simp only [h, h2, if_true, if_false, and_ffff _ ha, Nat.and_zero]; omega
  · have h2 : toShort (a - b) < 0 := by omega
    simp only [h, h2, if_true, if_false, and_ffff _ hb, Nat.and_zero]; omega

theorem neon_select_eq (a b : Int) (ha : isShort a) (hb : isShort b) :
    neon_select a b = scalar_select a b := by
  unfold isShort at ha hb
  unfold neon_select scalar_select toShort
  split <;> split <;> omega

theorem length_quadList (f : Int → Int → Int) (A B C D : List Int) :
    (quadList f A B C D).length
      = min (min A.length B.length) (min C.length D.length) := by
  simp [quadList]

theorem take_drop_quadList (f : Int → Int → Int) (A B C D : List Int) (k n : Nat) :
    ((quadList f A B C D).drop k).take n
      = quadList f ((A.drop k).take n) ((B.drop k).take n) ((C.drop k).take n)
          ((D.drop k).take n) := by
  simp [quadList, List.take_zipWith, List.drop_zipWith]

theorem getElem?_quadList (f : Int → Int → Int) (A B C D : List Int) (i : Nat) (a b c d : Int)
    (ha : A[i]? = some a) (hb : B[i]? = some b) (hc : C[i]? = some c) (hd : D[i]? = some d) :
    (quadList f A B C D)[i]? = some (f (f a b) (f c d)) := by
  simp [quadList, List.getElem?_zipWith, ha, hb, hc, hd]

theorem isShort_scalar_select (a b : Int) (ha : isShort a) (hb : isShort b) :
    isShort (scalar_select a b) := by
  unfold scalar_select; split <;> assumption

theorem isShort_sse2_select (a b : Int) (ha : isShort a) (hb : isShort b) :
    isShort (sse2_select a b) := by
  unfold sse2_select; split <;> assumption

theorem neon_lane_final (a b c d : Int) (ha : isShort a) (hb : isShort b) (hc : isShort c)
    (hd : isShort d) :
    ofBits16 (toBits16 (neon_select (neon_select a b) (neon_select c d)))
      = scalar_select (scalar_select a b) (scalar_select c d) := by
  rw [neon_select_eq a b ha hb, neon_select_eq c d hc hd,
    neon_select_eq _ _ (isShort_scalar_select a b ha hb) (isShort_scalar_select c d hc hd)]
  exact ofBits16_toBits16 _ (isShort_scalar_select _ _ (isShort_scalar_select a b ha hb)
    (isShort_scalar_select c d hc hd))

theorem neon_regs_eq (A B C D : List Int) (hA : A.length = 8) (hB : B.length = 8)
    (hC : C.length = 8) (hD : D.length = 8) :
    neon_regs (A.map toBits16) (B.map toBits16) (C.map toBits16) (D.map toBits16)
      = ((List.zipWith neon_select A B).map toBits16,
         (List.zipWith neon_select C D).map toBits16,
         (quadList neon_select A B C D).map toBits16) := by
  match A, hA, B, hB, C, hC, D, hD with
  | [a0, a1, a2, a3, a4, a5, a6, a7], _, [b0, b1, b2, b3, b4, b5, b6, b7], _,
    [c0, c1, c2, c3, c4, c5, c6, c7], _, [d0, d1, d2, d3, d4, d5, d6, d7], _ =>
    simp only [neon_regs, vdupq_n_s16, vsubq_s16, vaddq_s16, vcgeq_s16, vcltq_s16, vandq_s16,
      quadList, List.zipWith, List.map, List.replicate, neon_lane_select]

theorem sse2_lane_select0 (a b : Int) :
    add16 (cmpgt16 (sub16 (toBits16 b) (toBits16 a)) 0 &&& toBits16 b)
      (andnot16 (cmpgt16 (sub16 (toBits16 b) (toBits16 a)) 0) (toBits16 a))
      = toBits16 (sse2_select a b) :=
  sse2_lane_select a b 0 rfl

theorem a_sse2_regs_eq (A B C D : List Int) (hA : A.length = 8) (hB : B.length = 8)
    (hC : C.length = 8) (hD : D.length = 8) :
    a_sse2_regs (A.map toBits16) (B.map toBits16) (C.map toBits16) (D.map toBits16)
      = ((List.zipWith sse2_select A B).map toBits16,
         (List.zipWith sse2_select C D).map toBits16,
         (quadList sse2_select A B C D).map toBits16) := by
  match A, hA, B, hB, C, hC, D, hD with
  | [a0, a1, a2, a3, a4, a5, a6, a7], _, [b0, b1, b2, b3, b4, b5, b6, b7], _,
    [c0, c1, c2, c3, c4, c5, c6, c7], _, [d0, d1, d2, d3, d4, d5, d6, d7], _ =>
    simp only [a_sse2_regs, mm_setzero_si128, mm_sub_epi16, mm_add_epi16, mm_cmpgt_epi16,
      mm_and_si128, mm_andnot_si128, mm_xor_si128,
      quadList, List.zipWith, List.map, List.replicate, Nat.xor_self, sse2_lane_select0]

theorem quad_scalar_loop (T A B C D : List Int) (lo hi : Nat) (hle : lo ≤ hi)
    (hT : hi ≤ T.length) (hA : hi ≤ A.length) (hB : hi ≤ B.length) (hC : hi ≤ C.length)
    (hD : hi ≤ D.length) :
    forRange (quad_scalar_body A B C D) lo hi (quadResult T A B C D lo)
      = some (quadResult T A B C D hi) := by
  have hlen := length_quadList scalar_select A B C D
  obtain ⟨s', h1, h2⟩ := forRange_inv (quad_scalar_body A B C D)
    (fun i s => s = quadResult T A B C D i) lo hi _ hle rfl (by
      intro i t _ hi2 ht
      subst ht
      refine ⟨quadResult T A B C D (i + 1), ?_, rfl⟩
      have ea : A[i]? = some A[i] := List.getElem?_eq_getElem (by omega)
      have eb : B[i]? = some B[i] := List.getElem?_eq_getElem (by omega)
      have ec : C[i]? = some C[i] := List.getElem?_eq_getElem (by omega)
      have ed : D[i]? = some D[i] := List.getElem?_eq_getElem (by omega)
      simp only [quad_scalar_body, readAt, ea, eb, ec, ed, Option.some_bind, quadResult]
      exact writeAt_overwritePrefix _ _ _ _ (by omega)
        (getElem?_quadList scalar_select A B C D i _ _ _ _ ea eb ec ed))
  rw [h1, h2]

theorem quad_generic_eq (T A B C D : List Int) (n : Nat) (hn : n < 2 ^ 31)
    (hT : n ≤ T.length) (hA : n ≤ A.length) (hB : n ≤ B.length) (hC : n ≤ C.length)
    (hD : n ≤ D.length) :
    volk_16i_x4_quad_max_star_16i_generic T A B C D n = some (quadResult T A B C D n) := by
  unfold volk_16i_x4_quad_max_star_16i_generic
  have hb : (n * 2 % 2 ^ 32) >>> 1 = n := by
    rw [Nat.shiftRight_eq_div_pow]; omega
  simp only [hb]
  have := quad_scalar_loop T A B C D 0 n (Nat.zero_le _) hT hA hB hC hD
  simpa [quadResult, overwritePrefix_zero] using this

theorem neon_chunk (A B C D : List Int) (hA : A.length = 8) (hB : B.length = 8)
    (hC : C.length = 8) (hD : D.length = 8) (sA : ∀ x ∈ A, isShort x) (sB : ∀ x ∈ B, isShort x)
    (sC : ∀ x ∈ C, isShort x) (sD : ∀ x ∈ D, isShort x) :
    (neon_regs (A.map toBits16) (B.map toBits16) (C.map toBits16) (D.map toBits16)).2.2.map
      ofBits16 = quadList scalar_select A B C D := by
  rw [neon_regs_eq A B C D hA hB hC hD]
  match A, hA, B, hB, C, hC, D, hD, sA, sB, sC, sD with
  | [a0, a1, a2, a3, a4, a5, a6, a7], _, [b0, b1, b2, b3, b4, b5, b6, b7], _,
    [c0, c1, c2, c3, c4, c5, c6, c7], _, [d0, d1, d2, d3, d4, d5, d6, d7], _, sA, sB, sC, sD =>
    simp only [List.mem_cons, List.mem_singleton, forall_eq_or_imp, forall_eq,
      List.not_mem_nil] at sA sB sC sD
    simp only [quadList, List.zipWith, List.map]
    rw [neon_lane_final a0 b0 c0 d0 sA.1 sB.1 sC.1 sD.1,
      neon_lane_final a1 b1 c1 d1 sA.2.1 sB.2.1 sC.2.1 sD.2.1,
      neon_lane_final a2 b2 c2 d2 sA.2.2.1 sB.2.2.1 sC.2.2.1 sD.2.2.1,
      neon_lane_final a3 b3 c3 d3 sA.2.2.2.1 sB.2.2.2.1 sC.2.2.2.1 sD.2.2.2.1,
      neon_lane_final a4 b4 c4 d4 sA.2.2.2.2.1 sB.2.2.2.2.1 sC.2.2.2.2.1 sD.2.2.2.2.1,
      neon_lane_final a5 b5 c5 d5 sA.2.2.2.2.2.1 sB.2.2.2.2.2.1 sC.2.2.2.2.2.1 sD.2.2.2.2.2.1,
      neon_lane_final a6 b6 c6 d6 sA.2.2.2.2.2.2.1 sB.2.2.2.2.2.2.1 sC.2.2.2.2.2.2.1
        sD.2.2.2.2.2.2.1,
      neon_lane_final a7 b7 c7 d7 sA.2.2.2.2.2.2.2.1 sB.2.2.2.2.2.2.2.1 sC.2.2.2.2.2.2.2.1
        sD.2.2.2.2.2.2.2.1]

theorem vld1q_s16_eq (mem : List Int) (p : Nat) (h : p + 8 ≤ mem.length) :
    vld1q_s16 mem p = some (((mem.drop p).take 8).map toBits16) := by
  simp [vld1q_s16, readBlock, h]

theorem length_take_drop {α : Type} (mem : List α) (p n : Nat) (h : p + n ≤ mem.length) :
    ((mem.drop p).take n).length = n := by
  simp; omega

theorem mem_take_drop {α : Type} (mem : List α) (p n : Nat) (P : α → Prop)
    (h : ∀ x ∈ mem, P x) : ∀ x ∈ (mem.drop p).take n, P x :=
  fun x hx => h x (List.mem_of_mem_drop (List.mem_of_mem_take hx))

theorem quad_neon_loop (T A B C D : List Int) (m : Nat)
    (hT : m * 8 ≤ T.length) (hA : m * 8 ≤ A.length) (hB : m * 8 ≤ B.length)
    (hC : m * 8 ≤ C.length) (hD : m * 8 ≤ D.length)
    (sA : ∀ x ∈ A, isShort x) (sB : ∀ x ∈ B, isShort x)
    (sC : ∀ x ∈ C, isShort x) (sD : ∀ x ∈ D, isShort x) :
    forRange (quad_neon_body A B C D) 0 m ⟨T, 0, 0, 0, 0, 0⟩
      = some ⟨quadResult T A B C D (m * 8), m * 8, m * 8, m * 8, m * 8, m * 8⟩ := by
  have hlen := length_quadList scalar_select A B C D
  obtain ⟨s', h1, h2⟩ := forRange_inv (quad_neon_body A B C D)
    (fun i s => s = ⟨quadResult T A B C D (i * 8), i * 8, i * 8, i * 8, i * 8, i * 8⟩)
    0 m ⟨T, 0, 0, 0, 0, 0⟩ (Nat.zero_le _)
    (by simp [quadResult, overwritePrefix_zero]) (by
      intro i t _ hi2 ht
      subst ht
      have hs : (i + 1) * 8 = i * 8 + 8 := Nat.succ_mul i 8
      refine ⟨⟨quadResult T A B C D ((i + 1) * 8), (i + 1) * 8, (i + 1) * 8, (i + 1) * 8,
        (i + 1) * 8, (i + 1) * 8⟩, ?_, rfl⟩
      simp only [quad_neon_body, vld1q_s16_eq A (i * 8) (by omega),
        vld1q_s16_eq B (i * 8) (by omega), vld1q_s16_eq C (i * 8) (by omega),
        vld1q_s16_eq D (i * 8) (by omega), Option.some_bind, vst1q_s16]
      rw [neon_chunk _ _ _ _ (length_take_drop A _ 8 (by omega))
        (length_take_drop B _ 8 (by omega)) (length_take_drop C _ 8 (by omega))
        (length_take_drop D _ 8 (by omega)) (mem_take_drop A _ _ _ sA)
        (mem_take_drop B _ _ _ sB) (mem_take_drop C _ _ _ sC) (mem_take_drop D _ _ _ sD)]
      rw [← take_drop_quadList]
      unfold quadResult
      rw [writeBlock_overwritePrefix _ _ _ _ (by omega) (by omega), hs]
      rfl)
  rw [h1, h2]

theorem quad_neon_tail_loop (T A B C D : List Int) (lo hi : Nat) (hle : lo ≤ hi)
    (hT : hi ≤ T.length) (hA : hi ≤ A.length) (hB : hi ≤ B.length) (hC : hi ≤ C.length)
    (hD : hi ≤ D.length) :
    forRange (quad_neon_tail A B C D) lo hi ⟨quadResult T A B C D lo, lo, lo, lo, lo, lo⟩
      = some ⟨quadResult T A B C D hi, hi, hi, hi, hi, hi⟩ := by
  have hlen := length_quadList scalar_select A B C D
  obtain ⟨s', h1, h2⟩ := forRange_inv (quad_neon_tail A B C D)
    (fun i s => s = ⟨quadResult T A B C D i, i, i, i, i, i⟩) lo hi _ hle rfl (by
      intro i t _ hi2 ht
      subst ht
      refine ⟨⟨quadResult T A B C D (i + 1), i + 1, i + 1, i + 1, i + 1, i + 1⟩, ?_, rfl⟩
      have ea : A[i]? = some A[i] := List.getElem?_eq_getElem (by omega)
      have eb : B[i]? = some B[i] := List.getElem?_eq_getElem (by omega)
      have ec : C[i]? = some C[i] := List.getElem?_eq_getElem (by omega)
      have ed : D[i]? = some D[i] := List.getElem?_eq_getElem (by omega)
      simp only [quad_neon_tail, readAt, ea, eb, ec, ed, Option.some_bind, quadResult]
      rw [writeAt_overwritePrefix _ _ _ _ (by omega)
        (getElem?_quadList scalar_select A B C D i _ _ _ _ ea eb ec ed)]
      rfl)
  rw [h1, h2]

theorem quad_neon_eq (T A B C D : List Int) (n : Nat)
    (hT : n ≤ T.length) (hA : n ≤ A.length) (hB : n ≤ B.length) (hC : n ≤ C.length)
    (hD : n ≤ D.length) (sA : ∀ x ∈ A, isShort x) (sB : ∀ x ∈ B, isShort x)
    (sC : ∀ x ∈ C, isShort x) (sD : ∀ x ∈ D, isShort x) :
    volk_16i_x4_quad_max_star_16i_neon T A B C D n = some (quadResult T A B C D n) := by
  have hle : n / 8 * 8 ≤ n := Nat.div_mul_le_self n 8
  unfold volk_16i_x4_quad_max_star_16i_neon
  simp only []
  rw [quad_neon_loop T A B C D (n / 8) (by omega) (by omega) (by omega) (by omega) (by omega)
    sA sB sC sD]
  simp only [Option.some_bind]
  rw [quad_neon_tail_loop T A B C D _ _ hle hT hA hB hC hD]
  rfl


/-! ## Further lemmas for the stated properties -/

theorem byteswap_scalar_plain (w : Nat) :
    byteswap_scalar w = ((w >>> 24) &&& 0xff) ||| ((w >>> 8) &&& 0xff00) |||
      ((w <<< 8) &&& 0xff0000) ||| ((w <<< 24) &&& 0xff000000) := by
  unfold byteswap_scalar
  have e3 : ((w <<< 8) % 2 ^ 32) &&& 0xff0000 = (w <<< 8) &&& 0xff0000 := by
    rw [and_ff0000, and_ff0000]; omega
  have e4 : ((w <<< 24) % 2 ^ 32) &&& 0xff000000 = (w <<< 24) &&& 0xff000000 := by
    rw [and_ff000000, and_ff000000]; omega
  rw [e3, e4]

theorem length_swapped (buf : List Nat) (n : Nat) (hn : n ≤ buf.length) :
    (swapped buf n).length = buf.length :=
  length_overwritePrefix _ _ _ (by simp; omega) hn

theorem getElem?_swapped (buf : List Nat) (n j : Nat) (hn : n ≤ buf.length) :
    (swapped buf n)[j]? = if j < n then buf[j]?.map byteswap_scalar else buf[j]? := by
  unfold swapped
  rw [getElem?_overwritePrefix _ _ _ _ (by simp; omega)]
  simp [List.getElem?_map]

theorem swapped_swapped (buf : List Nat) (hb : ∀ w ∈ buf, w < 2 ^ 32) (n : Nat)
    (hn : n ≤ buf.length) : swapped (swapped buf n) n = buf := by
  have hl := length_swapped buf n hn
  apply List.ext_getElem?
  intro j
  rw [getElem?_swapped _ _ _ (by omega), getElem?_swapped _ _ _ hn]
  by_cases hj : j < n
  · simp only [hj, if_true]
    have hjl : j < buf.length := by omega
    rw [List.getElem?_eq_getElem hjl]
    simp only [Option.map_some']
    rw [byteswap_scalar_invol _ (hb _ (List.getElem_mem hjl))]
  · simp only [hj, if_false]

theorem length_quadResult (T A B C D : List Int) (n : Nat) (hT : n ≤ T.length)
    (hA : n ≤ A.length) (hB : n ≤ B.length) (hC : n ≤ C.length) (hD : n ≤ D.length) :
    (quadResult T A B C D n).length = T.length := by
  have hlen := length_quadList scalar_select A B C D
  exact length_overwritePrefix _ _ _ (by omega) hT

theorem getElem?_quadResult (T A B C D : List Int) (n i : Nat) (a b c d : Int)
    (hA : n ≤ A.length) (hB : n ≤ B.length) (hC : n ≤ C.length) (hD : n ≤ D.length)
    (hi : i < n) (ha : A[i]? = some a) (hb : B[i]? = some b) (hc : C[i]? = some c)
    (hd : D[i]? = some d) :
    (quadResult T A B C D n)[i]?
      = some (scalar_select (scalar_select a b) (scalar_select c d)) := by
  have hlen := length_quadList scalar_select A B C D
  unfold quadResult
  rw [getElem?_overwritePrefix _ _ _ _ (by omega), if_pos hi]
  exact getElem?_quadList _ _ _ _ _ _ _ _ _ _ ha hb hc hd

theorem scalar_tie (a b : Int) (h : toShort (a - b) = 0) : scalar_select a b = b := by
  unfold scalar_select
  rw [h]; simp

theorem sse2_tie (a b : Int) (ha : isShort a) (hb : isShort b) (h : toShort (a - b) = 0) :
    sse2_select a b = b := by
  unfold isShort at ha hb
  unfold toShort at h
  unfold sse2_select toShort
  split <;> omega

theorem neon_tie (a b : Int) (ha : isShort a) (hb : isShort b) (h : toShort (a - b) = 0) :
    neon_select a b = b := by
  unfold isShort at ha hb
  unfold toShort at h
  unfold neon_select toShort
  split <;> omega

theorem isShort_neon_select (a b : Int) (ha : isShort a) (hb : isShort b) :
    isShort (neon_select a b) := by
  unfold neon_select; split <;> assumption

/-- Lanes of the three registers of a vector loop body, for a lane-wise
selection `sel` that returns one of its arguments. -/
theorem regs_lanes (sel : Int → Int → Int)
    (hsel : ∀ x y, isShort x → isShort y → isShort (sel x y))
    (A B C D : List Int) (l : Nat) (a b c d : Int)
    (ha : A[l]? = some a) (hb : B[l]? = some b) (hc : C[l]? = some c) (hd : D[l]? = some d)
    (sa : isShort a) (sb : isShort b) (sc : isShort c) (sd : isShort d) :
    ∃ p q t, ((List.zipWith sel A B).map toBits16)[l]? = some p ∧
      ((List.zipWith sel C D).map toBits16)[l]? = some q ∧
      ((quadList sel A B C D).map toBits16)[l]? = some t ∧
      ofBits16 p = sel a b ∧ ofBits16 q = sel c d ∧
      ofBits16 t = sel (sel a b) (sel c d) := by
  refine ⟨toBits16 (sel a b), toBits16 (sel c d), toBits16 (sel (sel a b) (sel c d)),
    ?_, ?_, ?_, ?_, ?_, ?_⟩
  · simp [List.getElem?_map, List.getElem?_zipWith, ha, hb]
  · simp [List.getElem?_map, List.getElem?_zipWith, hc, hd]
  · simp [List.getElem?_map, getElem?_quadList sel A B C D l a b c d ha hb hc hd]
  · exact ofBits16_toBits16 _ (hsel _ _ sa sb)
  · exact ofBits16_toBits16 _ (hsel _ _ sc sd)
  · exact ofBits16_toBits16 _ (hsel _ _ (hsel _ _ sa sb) (hsel _ _ sc sd))

/-! ## The stated properties -/

/-- C1: for every buffer and every `num_points` not exceeding its length,
`volk_32u_byteswap_generic` returns a buffer of the same length in which every
element at an index `i < num_points` is
`((w>>24)&0xff) | ((w>>8)&0xff00) | ((w<<8)&0xff0000) | ((w<<24)&0xff000000)`
of the original element `w`; and `[0x00000001, 0xFFFFFFFF, 0x5A5A5A5A]` with
count 3 becomes `[0x01000000, 0xFFFFFFFF, 0x5A5A5A5A]`. -/
theorem byteswap_generic_formula (intsToSwap : List Nat) (num_points : Nat)
    (hn : num_points ≤ intsToSwap.length) :
    (∃ out, volk_32u_byteswap_generic intsToSwap num_points = some out ∧
      out.length = intsToSwap.length ∧
      ∀ i w, i < num_points → intsToSwap[i]? = some w →
        out[i]? = some (((w >>> 24) &&& 0xff) ||| ((w >>> 8) &&& 0xff00) |||
          ((w <<< 8) &&& 0xff0000) ||| ((w <<< 24) &&& 0xff000000))) ∧
    volk_32u_byteswap_generic [0x00000001, 0xFFFFFFFF, 0x5A5A5A5A] 3
      = some [0x01000000, 0xFFFFFFFF, 0x5A5A5A5A] := by
  refine ⟨⟨swapped intsToSwap num_points, generic_eq _ _ hn, length_swapped _ _ hn, ?_⟩,
    by decide⟩
  intro i w hi hw
  rw [getElem?_swapped _ _ _ hn, if_pos hi, hw, ← byteswap_scalar_plain]
  rfl

/-- Witness of C1 on a four-word buffer with count 2. -/
theorem byteswap_generic_formula_witness :
    2 ≤ [0x11223344, 0xAABBCCDD, 7, 8].length ∧
    ((∃ out, volk_32u_byteswap_generic [0x11223344, 0xAABBCCDD, 7, 8] 2 = some out ∧
      out.length = [0x11223344, 0xAABBCCDD, 7, 8].length ∧
      ∀ i w, i < 2 → [0x11223344, 0xAABBCCDD, 7, 8][i]? = some w →
        out[i]? = some (((w >>> 24) &&& 0xff) ||| ((w >>> 8) &&& 0xff00) |||
          ((w <<< 8) &&& 0xff0000) ||| ((w <<< 24) &&& 0xff000000))) ∧
    volk_32u_byteswap_generic [0x00000001, 0xFFFFFFFF, 0x5A5A5A5A] 3
      = some [0x01000000, 0xFFFFFFFF, 0x5A5A5A5A]) :=
  ⟨by decide, byteswap_generic_formula [0x11223344, 0xAABBCCDD, 7, 8] 2 (by decide)⟩

/-- C2: for `num_points < 2 ^ 31` not exceeding the lengths of the five
buffers, `volk_16i_x4_quad_max_star_16i_generic` returns a target in which, at
every index `i < num_points`, `t[i] = (p - q > 0) ? p : q` with
`p = (a[i] - b[i] > 0) ? a[i] : b[i]` and `q = (c[i] - d[i] > 0) ? c[i] : d[i]`,
each difference being reduced to 16 bits signed before the comparison; and
`a = [5], b = [3], c = [2], d = [9]`, count 1 gives `t = [9]`. -/
theorem quad_generic_formula (target src0 src1 src2 src3 : List Int) (num_points : Nat)
    (hn : num_points < 2 ^ 31) (hT : num_points ≤ target.length)
    (h0 : num_points ≤ src0.length) (h1 : num_points ≤ src1.length)
    (h2 : num_points ≤ src2.length) (h3 : num_points ≤ src3.length) :
    (∃ out, volk_16i_x4_quad_max_star_16i_generic target src0 src1 src2 src3 num_points
        = some out ∧ out.length = target.length ∧
      ∀ i a b c d, i < num_points → src0[i]? = some a → src1[i]? = some b →
        src2[i]? = some c → src3[i]? = some d →
        out[i]? = some
          (if toShort ((if toShort (a - b) > 0 then a else b)
              - (if toShort (c - d) > 0 then c else d)) > 0
            then (if toShort (a - b) > 0 then a else b)
            else (if toShort (c - d) > 0 then c else d))) ∧
    ∀ t0 : Int, volk_16i_x4_quad_max_star_16i_generic [t0] [5] [3] [2] [9] 1 = some [9] := by
  refine ⟨⟨quadResult target src0 src1 src2 src3 num_points,
    quad_generic_eq _ _ _ _ _ _ hn hT h0 h1 h2 h3, length_quadResult _ _ _ _ _ _ hT h0 h1 h2 h3,
    ?_⟩, fun t0 => rfl⟩
  intro i a b c d hi ha hb hc hd
  rw [getElem?_quadResult _ _ _ _ _ _ _ a b c d h0 h1 h2 h3 hi ha hb hc hd]
  rfl

/-- Witness of C2 on buffers of three shorts with count 2, the first position
having a difference that wraps. -/
theorem quad_generic_formula_witness :
    ∃ out, volk_16i_x4_quad_max_star_16i_generic [0, 0, 0] [-32768, 4, 1] [1, 4, 1]
        [7, -3, 1] [7, 2, 1] 2 = some out ∧ out.length = 3 ∧
      out[0]? = some (-32768) ∧ out[1]? = some 4 := by
  obtain ⟨⟨out, h, hl, hf⟩, _⟩ := quad_generic_formula [0, 0, 0] [-32768, 4, 1] [1, 4, 1]
    [7, -3, 1] [7, 2, 1] 2 (by decide) (by decide) (by decide) (by decide) (by decide)
    (by decide)
  refine ⟨out, h, hl, ?_, ?_⟩
  · exact hf 0 (-32768) 1 7 7 (by decide) (by decide) (by decide) (by decide) (by decide)
  · exact hf 1 4 4 (-3) 2 (by decide) (by decide) (by decide) (by decide) (by decide)

/-- C3 (evaluation at the failing input): on eight positions whose first
holds `a = -32768, b = c = d = 0`, the vector loop of
`volk_16i_x4_quad_max_star_16i_a_sse2` stores `-32768` where
`volk_16i_x4_quad_max_star_16i_generic` stores `0`; on the same four values
with count 1, which the scalar tail of the SSE2 kernel handles, the SSE2 kernel
stores `0` as well. -/
theorem quad_sse2_differs_from_generic :
    volk_16i_x4_quad_max_star_16i_a_sse2 [1, 1, 1, 1, 1, 1, 1, 1]
        [-32768, 0, 0, 0, 0, 0, 0, 0] [0, 0, 0, 0, 0, 0, 0, 0] [0, 0, 0, 0, 0, 0, 0, 0]
        [0, 0, 0, 0, 0, 0, 0, 0] 8 = some [-32768, 0, 0, 0, 0, 0, 0, 0] ∧
    volk_16i_x4_quad_max_star_16i_generic [1, 1, 1, 1, 1, 1, 1, 1]
        [-32768, 0, 0, 0, 0, 0, 0, 0] [0, 0, 0, 0, 0, 0, 0, 0] [0, 0, 0, 0, 0, 0, 0, 0]
        [0, 0, 0, 0, 0, 0, 0, 0] 8 = some [0, 0, 0, 0, 0, 0, 0, 0] ∧
    volk_16i_x4_quad_max_star_16i_a_sse2 [1] [-32768] [0] [0] [0] 1 = some [0] := by
  decide

/-- C4: for `num_points < 2 ^ 31` not exceeding the lengths of the five
buffers, and inputs that are shorts, `volk_16i_x4_quad_max_star_16i_neon` and
`volk_16i_x4_quad_max_star_16i_generic` both return, and return the same
target buffer. -/
theorem quad_neon_eq_generic (target src0 src1 src2 src3 : List Int) (num_points : Nat)
    (hn : num_points < 2 ^ 31) (hT : num_points ≤ target.length)
    (h0 : num_points ≤ src0.length) (h1 : num_points ≤ src1.length)
    (h2 : num_points ≤ src2.length) (h3 : num_points ≤ src3.length)
    (s0 : ∀ x ∈ src0, isShort x) (s1 : ∀ x ∈ src1, isShort x)
    (s2 : ∀ x ∈ src2, isShort x) (s3 : ∀ x ∈ src3, isShort x) :
    ∃ out, volk_16i_x4_quad_max_star_16i_neon target src0 src1 src2 src3 num_points
        = some out ∧
      volk_16i_x4_quad_max_star_16i_generic target src0 src1 src2 src3 num_points
        = some out :=
  ⟨quadResult target src0 src1 src2 src3 num_points,
    quad_neon_eq _ _ _ _ _ _ hT h0 h1 h2 h3 s0 s1 s2 s3,
    quad_generic_eq _ _ _ _ _ _ hn hT h0 h1 h2 h3⟩

/-- Witness of C4 on nine positions (one vector iteration and a tail of one),
with ties and differences that wrap. -/
theorem quad_neon_eq_generic_witness :
    ∃ out, volk_16i_x4_quad_max_star_16i_neon [1, 1, 1, 1, 1, 1, 1, 1, 1, 1]
        [-32768, 2, 3, 4, 5, 6, 7, 8, 9, 0] [0, 2, 5, 4, -9, 6, 32767, 8, 9, 0]
        [0, 2, 3, 4, 5, 6, -2, 8, 9, 0] [0, 2, 3, 4, 5, 6, 7, 8, -9, 0] 9 = some out ∧
      volk_16i_x4_quad_max_star_16i_generic [1, 1, 1, 1, 1, 1, 1, 1, 1, 1]
        [-32768, 2, 3, 4, 5, 6, 7, 8, 9, 0] [0, 2, 5, 4, -9, 6, 32767, 8, 9, 0]
        [0, 2, 3, 4, 5, 6, -2, 8, 9, 0] [0, 2, 3, 4, 5, 6, 7, 8, -9, 0] 9 = some out :=
  quad_neon_eq_generic [1, 1, 1, 1, 1, 1, 1, 1, 1, 1]
    [-32768, 2, 3, 4, 5, 6, 7, 8, 9, 0] [0, 2, 5, 4, -9, 6, 32767, 8, 9, 0]
    [0, 2, 3, 4, 5, 6, -2, 8, 9, 0] [0, 2, 3, 4, 5, 6, 7, 8, -9, 0] 9
    (by decide) (by decide) (by decide) (by decide) (by decide) (by decide)
    (by decide) (by decide) (by decide) (by decide)

/-- C5: for every buffer of words below `2 ^ 32` and every count not exceeding
its length, `volk_32u_byteswap_generic` applied twice with the same count
gives back the original buffer. -/
theorem byteswap_generic_involution (intsToSwap : List Nat) (num_points : Nat)
    (hb : ∀ w ∈ intsToSwap, w < 2 ^ 32) (hn : num_points ≤ intsToSwap.length) :
    ∃ mid, volk_32u_byteswap_generic intsToSwap num_points = some mid ∧
      volk_32u_byteswap_generic mid num_points = some intsToSwap := by
  refine ⟨swapped intsToSwap num_points, generic_eq _ _ hn, ?_⟩
  rw [generic_eq _ _ (by rw [length_swapped _ _ hn]; exact hn),
    swapped_swapped _ hb _ hn]

/-- Witness of C5 on a four-word buffer with count 3. -/
theorem byteswap_generic_involution_witness :
    ∃ mid, volk_32u_byteswap_generic [0x11223344, 0xFFFFFFFF, 0, 0x80000001] 3 = some mid ∧
      volk_32u_byteswap_generic mid 3 = some [0x11223344, 0xFFFFFFFF, 0, 0x80000001] :=
  byteswap_generic_involution [0x11223344, 0xFFFFFFFF, 0, 0x80000001] 3 (by decide)
    (by decide)

/-- C6: for every buffer of words below `2 ^ 32` and every count not exceeding
its length, `volk_32u_byteswap_u_sse2` and `volk_32u_byteswap_a_sse2` return
the buffer that `volk_32u_byteswap_generic` returns; the register computation
of their loop bodies is, in each of the four lanes,
`(x<<24) | (x>>24) | ((x<<8) & 0x00FF0000) | ((x>>8) & 0x0000FF00)`. -/
theorem byteswap_sse2_eq_generic (intsToSwap : List Nat) (num_points : Nat)
    (hb : ∀ w ∈ intsToSwap, w < 2 ^ 32) (hn : num_points ≤ intsToSwap.length) :
    (∃ out, volk_32u_byteswap_generic intsToSwap num_points = some out ∧
      volk_32u_byteswap_u_sse2 intsToSwap num_points = some out ∧
      volk_32u_byteswap_a_sse2 intsToSwap num_points = some out) ∧
    ∀ x0 x1 x2 x3 : Nat, sse2_swap [x0, x1, x2, x3] =
      [x0, x1, x2, x3].map fun x =>
        ((x <<< 24) % 2 ^ 32 ||| x >>> 24) ||| ((x <<< 8) % 2 ^ 32 &&& 0x00FF0000)
          ||| (x >>> 8 &&& 0x0000FF00) :=
  ⟨⟨swapped intsToSwap num_points, generic_eq _ _ hn, u_sse2_eq _ hb _ hn,
    a_sse2_eq _ hb _ hn⟩, fun _ _ _ _ => rfl⟩

/-- Witness of C6 on ten words with count 9 (two vector iterations and a tail
of one). -/
theorem byteswap_sse2_eq_generic_witness :
    ∃ out, volk_32u_byteswap_generic
        [1, 2, 3, 0xFFFFFFFF, 0x5A5A5A5A, 6, 7, 0x12345678, 0x80000000, 10] 9 = some out ∧
      volk_32u_byteswap_u_sse2
        [1, 2, 3, 0xFFFFFFFF, 0x5A5A5A5A, 6, 7, 0x12345678, 0x80000000, 10] 9 = some out ∧
      volk_32u_byteswap_a_sse2
        [1, 2, 3, 0xFFFFFFFF, 0x5A5A5A5A, 6, 7, 0x12345678, 0x80000000, 10] 9 = some out :=
  (byteswap_sse2_eq_generic
    [1, 2, 3, 0xFFFFFFFF, 0x5A5A5A5A, 6, 7, 0x12345678, 0x80000000, 10] 9
    (by decide) (by decide)).1

/-- C7: for every buffer of words below `2 ^ 32` and every count not exceeding
its length, `volk_32u_byteswap_u_avx2` and `volk_32u_byteswap_a_avx2` return
the buffer that `volk_32u_byteswap_generic` returns, each 32-byte chunk going
through `_mm256_shuffle_epi8` with `shuffleVector`, none of whose 32 entries
has its top bit set. -/
theorem byteswap_avx2_eq_generic (intsToSwap : List Nat) (num_points : Nat)
    (hb : ∀ w ∈ intsToSwap, w < 2 ^ 32) (hn : num_points ≤ intsToSwap.length) :
    (∃ out, volk_32u_byteswap_generic intsToSwap num_points = some out ∧
      volk_32u_byteswap_u_avx2 intsToSwap num_points = some out ∧
      volk_32u_byteswap_a_avx2 intsToSwap num_points = some out) ∧
    shuffleVector.length = 32 ∧ ∀ e ∈ shuffleVector, e &&& 0x80 = 0 :=
  ⟨⟨swapped intsToSwap num_points, generic_eq _ _ hn, u_avx2_eq _ hb _ hn,
    a_avx2_eq _ hb _ hn⟩, by decide, by decide⟩

/-- Witness of C7 on ten words with count 9 (one vector iteration and a tail
of one). -/
theorem byteswap_avx2_eq_generic_witness :
    ∃ out, volk_32u_byteswap_generic
        [1, 2, 3, 0xFFFFFFFF, 0x5A5A5A5A, 6, 7, 0x12345678, 0x80000000, 10] 9 = some out ∧
      volk_32u_byteswap_u_avx2
        [1, 2, 3, 0xFFFFFFFF, 0x5A5A5A5A, 6, 7, 0x12345678, 0x80000000, 10] 9 = some out ∧
      volk_32u_byteswap_a_avx2
        [1, 2, 3, 0xFFFFFFFF, 0x5A5A5A5A, 6, 7, 0x12345678, 0x80000000, 10] 9 = some out :=
  (byteswap_avx2_eq_generic
    [1, 2, 3, 0xFFFFFFFF, 0x5A5A5A5A, 6, 7, 0x12345678, 0x80000000, 10] 9
    (by decide) (by decide)).1


/-- C8: for every buffer of words below `2 ^ 32` and every count not exceeding
its length, `volk_32u_byteswap_neon` returns the buffer that
`volk_32u_byteswap_generic` returns. The four 64-bit constants are the byte
indices `{24,16,8,0,25,17,9,1}`, `{26,18,10,2,27,19,11,3}`,
`{28,20,12,4,29,21,13,5}`, `{30,22,14,6,31,23,15,7}`; entry `8k + m` of the
table loaded by `vld4_u8` from a chunk of eight words is byte `4m + k` of the
chunk, and the four lookups give the byte-reversed words 0-1, 2-3, 4-5 and 6-7
of the chunk. -/
theorem byteswap_neon_eq_generic (intsToSwap : List Nat) (num_points : Nat)
    (hb : ∀ w ∈ intsToSwap, w < 2 ^ 32) (hn : num_points ≤ intsToSwap.length) :
    (∃ out, volk_32u_byteswap_generic intsToSwap num_points = some out ∧
      volk_32u_byteswap_neon intsToSwap num_points = some out) ∧
    (vcreate_u8 74609667900706840 = [24, 16, 8, 0, 25, 17, 9, 1] ∧
      vcreate_u8 219290013576860186 = [26, 18, 10, 2, 27, 19, 11, 3] ∧
      vcreate_u8 363970359253013532 = [28, 20, 12, 4, 29, 21, 13, 5] ∧
      vcreate_u8 508650704929166878 = [30, 22, 14, 6, 31, 23, 15, 7]) ∧
    ∀ (mem : List Nat) (p w0 w1 w2 w3 w4 w5 w6 w7 : Nat),
      (∀ w ∈ [w0, w1, w2, w3, w4, w5, w6, w7], w < 2 ^ 32) →
      readBlock mem p 8 = some [w0, w1, w2, w3, w4, w5, w6, w7] →
      ∃ t, vld4_u8 mem p = some t ∧
        (∀ k m, k < 4 → m < 8 → t.flatten.getD (8 * k + m) 0
          = (toBytes [w0, w1, w2, w3, w4, w5, w6, w7]).getD (4 * m + k) 0) ∧
        fromBytes (vtbl4_u8 t (vcreate_u8 74609667900706840))
          = [byteswap_scalar w0, byteswap_scalar w1] ∧
        fromBytes (vtbl4_u8 t (vcreate_u8 219290013576860186))
          = [byteswap_scalar w2, byteswap_scalar w3] ∧
        fromBytes (vtbl4_u8 t (vcreate_u8 363970359253013532))
          = [byteswap_scalar w4, byteswap_scalar w5] ∧
        fromBytes (vtbl4_u8 t (vcreate_u8 508650704929166878))
          = [byteswap_scalar w6, byteswap_scalar w7] := by
  refine ⟨⟨swapped intsToSwap num_points, generic_eq _ _ hn, neon_eq _ hb _ hn⟩,
    neon_lookups, ?_⟩
  intro mem p w0 w1 w2 w3 w4 w5 w6 w7 hw hr
  simp only [List.mem_cons, List.mem_singleton, forall_eq_or_imp, forall_eq,
    List.not_mem_nil] at hw
  obtain ⟨h0, h1, h2, h3, h4, h5, h6, h7, _⟩ := hw
  obtain ⟨t01, t23, t45, t67⟩ := neon_tbl_eq w0 w1 w2 w3 w4 w5 w6 w7
  have hv : vld4_u8 mem p = some ((List.range 4).map fun k => (List.range 8).map fun m =>
      (toBytes [w0, w1, w2, w3, w4, w5, w6, w7]).getD (4 * m + k) 0) := by
    simp only [vld4_u8, hr, Option.map_some']
  refine ⟨_, hv, ?_, ?_, ?_, ?_, ?_⟩
  · intro k m hk hm
    interval_cases k <;> interval_cases m <;> rfl
  · rw [t01, fromBytes_rev2 w0 w1 h0 h1]
  · rw [t23, fromBytes_rev2 w2 w3 h2 h3]
  · rw [t45, fromBytes_rev2 w4 w5 h4 h5]
  · rw [t67, fromBytes_rev2 w6 w7 h6 h7]

/-- Witness of C8 on ten words with count 9 (one vector iteration and a tail
of one). -/
theorem byteswap_neon_eq_generic_witness :
    ∃ out, volk_32u_byteswap_generic
        [1, 2, 3, 0xFFFFFFFF, 0x5A5A5A5A, 6, 7, 0x12345678, 0x80000000, 10] 9 = some out ∧
      volk_32u_byteswap_neon
        [1, 2, 3, 0xFFFFFFFF, 0x5A5A5A5A, 6, 7, 0x12345678, 0x80000000, 10] 9 = some out :=
  (byteswap_neon_eq_generic
    [1, 2, 3, 0xFFFFFFFF, 0x5A5A5A5A, 6, 7, 0x12345678, 0x80000000, 10] 9
    (by decide) (by decide)).1

/-- C9: at a position holding the shorts `a, b, c, d`, with `p`, `q` the two
inner selections and `t` the value stored: when the 16-bit difference `a - b`
is `0` then `p = b`, when `c - d` is `0` then `q = d`, and when `p - q` is `0`
then `t = q`. This holds for the expressions of the generic loop body, and for
lane `l` of the registers of the SSE2 vector loop body and of the NEON vector
loop body, loaded from eight shorts each. -/
theorem quad_tie_break (A B C D : List Int) (l : Nat) (a b c d : Int)
    (hA : A.length = 8) (hB : B.length = 8) (hC : C.length = 8) (hD : D.length = 8)
    (ha : A[l]? = some a) (hb : B[l]? = some b) (hc : C[l]? = some c) (hd : D[l]? = some d)
    (sa : isShort a) (sb : isShort b) (sc : isShort c) (sd : isShort d) :
    ((toShort (a - b) = 0 → scalar_select a b = b) ∧
      (toShort (c - d) = 0 → scalar_select c d = d) ∧
      (toShort (scalar_select a b - scalar_select c d) = 0 →
        scalar_select (scalar_select a b) (scalar_select c d) = scalar_select c d)) ∧
    (∃ p q t,
      (a_sse2_regs (A.map toBits16) (B.map toBits16) (C.map toBits16)
        (D.map toBits16)).1[l]? = some p ∧
      (a_sse2_regs (A.map toBits16) (B.map toBits16) (C.map toBits16)
        (D.map toBits16)).2.1[l]? = some q ∧
      (a_sse2_regs (A.map toBits16) (B.map toBits16) (C.map toBits16)
        (D.map toBits16)).2.2[l]? = some t ∧
      (toShort (a - b) = 0 → ofBits16 p = b) ∧
      (toShort (c - d) = 0 → ofBits16 q = d) ∧
      (toShort (ofBits16 p - ofBits16 q) = 0 → ofBits16 t = ofBits16 q)) ∧
    (∃ p q t,
      (neon_regs (A.map toBits16) (B.map toBits16) (C.map toBits16)
        (D.map toBits16)).1[l]? = some p ∧
      (neon_regs (A.map toBits16) (B.map toBits16) (C.map toBits16)
        (D.map toBits16)).2.1[l]? = some q ∧
      (neon_regs (A.map toBits16) (B.map toBits16) (C.map toBits16)
        (D.map toBits16)).2.2[l]? = some t ∧
      (toShort (a - b) = 0 → ofBits16 p = b) ∧
      (toShort (c - d) = 0 → ofBits16 q = d) ∧
      (toShort (ofBits16 p - ofBits16 q) = 0 → ofBits16 t = ofBits16 q)) := by
  refine ⟨⟨scalar_tie a b, scalar_tie c d, scalar_tie _ _⟩, ?_, ?_⟩
  · rw [a_sse2_regs_eq A B C D hA hB hC hD]
    obtain ⟨p, q, t, hp, hq, ht, ep, eq, et⟩ := regs_lanes sse2_select isShort_sse2_select
      A B C D l a b c d ha hb hc hd sa sb sc sd
    refine ⟨p, q, t, hp, hq, ht, ?_, ?_, ?_⟩
    · intro h; rw [ep]; exact sse2_tie a b sa sb h
    · intro h; rw [eq]; exact sse2_tie c d sc sd h
    · intro h
      rw [ep, eq] at h
      rw [et, eq]
      exact sse2_tie _ _ (isShort_sse2_select a b sa sb) (isShort_sse2_select c d sc sd) h
  · rw [neon_regs_eq A B C D hA hB hC hD]
    obtain ⟨p, q, t, hp, hq, ht, ep, eq, et⟩ := regs_lanes neon_select isShort_neon_select
      A B C D l a b c d ha hb hc hd sa sb sc sd
    refine ⟨p, q, t, hp, hq, ht, ?_, ?_, ?_⟩
    · intro h; rw [ep]; exact neon_tie a b sa sb h
    · intro h; rw [eq]; exact neon_tie c d sc sd h
    · intro h
      rw [ep, eq] at h
      rw [et, eq]
      exact neon_tie _ _ (isShort_neon_select a b sa sb) (isShort_neon_select c d sc sd) h

/-- Witness of C9 at lane 2 of registers whose lane 2 holds `a = b = 7`,
`c = d = 7`: the three ties occur and every selection is `7`. -/
theorem quad_tie_break_witness :
    (toShort (7 - 7) = 0 ∧ toShort (scalar_select 7 7 - scalar_select 7 7) = 0) ∧
    scalar_select (scalar_select 7 7) (scalar_select 7 7) = scalar_select 7 7 ∧
    (∃ p q t,
      (a_sse2_regs ([1, 2, 7, 4, 5, 6, 7, 8].map toBits16)
        ([0, 5, 7, -4, 5, 6, 7, 8].map toBits16) ([1, 2, 7, 4, 5, 6, 7, 8].map toBits16)
        ([3, 2, 7, 4, -5, 6, 7, 8].map toBits16)).1[2]? = some p ∧
      (a_sse2_regs ([1, 2, 7, 4, 5, 6, 7, 8].map toBits16)
        ([0, 5, 7, -4, 5, 6, 7, 8].map toBits16) ([1, 2, 7, 4, 5, 6, 7, 8].map toBits16)
        ([3, 2, 7, 4, -5, 6, 7, 8].map toBits16)).2.1[2]? = some q ∧
      (a_sse2_regs ([1, 2, 7, 4, 5, 6, 7, 8].map toBits16)
        ([0, 5, 7, -4, 5, 6, 7, 8].map toBits16) ([1, 2, 7, 4, 5, 6, 7, 8].map toBits16)
        ([3, 2, 7, 4, -5, 6, 7, 8].map toBits16)).2.2[2]? = some t ∧
      ofBits16 p = 7 ∧ ofBits16 q = 7 ∧ ofBits16 t = 7) := by
  have h := quad_tie_break [1, 2, 7, 4, 5, 6, 7, 8] [0, 5, 7, -4, 5, 6, 7, 8]
    [1, 2, 7, 4, 5, 6, 7, 8] [3, 2, 7, 4, -5, 6, 7, 8] 2 7 7 7 7 rfl rfl rfl rfl
    (by decide) (by decide) (by decide) (by decide)
    (by decide) (by decide) (by decide) (by decide)
  have t0 : toShort (7 - 7) = 0 := by decide
  have t1 : toShort (scalar_select 7 7 - scalar_select 7 7) = 0 := by decide
  obtain ⟨⟨_, _, g3⟩, ⟨p, q, t, hp, hq, ht, e1, e2, e3⟩, _⟩ := h
  refine ⟨⟨t0, t1⟩, g3 t1, p, q, t, hp, hq, ht, e1 t0, e2 t0, ?_⟩
  rw [e3 (by rw [e1 t0, e2 t0]; decide), e2 t0]

/-- C10: for every word `w` below `2 ^ 32` at an index `i < num_points` of the
buffer, the word `v` that `volk_32u_byteswap_generic` leaves at `i` has, for
every `j` in `0..3`, its byte `j` (bits `8j .. 8j+7`) equal to byte `3 - j` of
`w`. -/
theorem byteswap_generic_reverses_bytes (intsToSwap : List Nat) (num_points i w : Nat)
    (hn : num_points ≤ intsToSwap.length) (hi : i < num_points)
    (hw : intsToSwap[i]? = some w) (hlt : w < 2 ^ 32) :
    ∃ out v, volk_32u_byteswap_generic intsToSwap num_points = some out ∧
      out[i]? = some v ∧
      ∀ j, j < 4 → v / 2 ^ (8 * j) % 256 = w / 2 ^ (8 * (3 - j)) % 256 := by
  refine ⟨swapped intsToSwap num_points, byteswap_scalar w, generic_eq _ _ hn, ?_, ?_⟩
  · rw [getElem?_swapped _ _ _ hn, if_pos hi, hw]; rfl
  · intro j hj
    rw [byteswap_scalar_bytes w hlt]
    obtain ⟨e0, e1, e2, _, e3⟩ := bytes_of_sum (w / 16777216 % 256) (w / 65536 % 256)
      (w / 256 % 256) (w % 256) (Nat.mod_lt _ (by norm_num)) (Nat.mod_lt _ (by norm_num))
      (Nat.mod_lt _ (by norm_num)) (Nat.mod_lt _ (by norm_num))
    interval_cases j
    · simpa using e0
    · simpa using e1
    · simpa using e2
    · simpa using e3

/-- Witness of C10 on the word `0x11223344` at index 1 of a three-word buffer. -/
theorem byteswap_generic_reverses_bytes_witness :
    ∃ out v, volk_32u_byteswap_generic [5, 0x11223344, 9] 2 = some out ∧
      out[1]? = some v ∧
      ∀ j, j < 4 → v / 2 ^ (8 * j) % 256 = 0x11223344 / 2 ^ (8 * (3 - j)) % 256 :=
  byteswap_generic_reverses_bytes [5, 0x11223344, 9] 2 1 0x11223344 (by decide) (by decide)
    (by decide) (by decide)

/-! ## Lemmas on bounds, frames, NEONv8, the SSE2 quad kernel and stores -/

theorem generic_bound_eq (n : Nat) : generic_bound n = n % 2 ^ 31 := by
  unfold generic_bound
  rw [Nat.shiftRight_eq_div_pow]; omega

theorem generic_bound_le (n : Nat) : generic_bound n ≤ n := by
  rw [generic_bound_eq]; exact Nat.mod_le _ _

theorem generic_bound_of_lt (n : Nat) (h : n < 2 ^ 31) : generic_bound n = n := by
  rw [generic_bound_eq]; exact Nat.mod_eq_of_lt h

theorem quad_generic_eq_bound (T A B C D : List Int) (n : Nat)
    (hT : generic_bound n ≤ T.length) (hA : generic_bound n ≤ A.length)
    (hB : generic_bound n ≤ B.length) (hC : generic_bound n ≤ C.length)
    (hD : generic_bound n ≤ D.length) :
    volk_16i_x4_quad_max_star_16i_generic T A B C D n
      = some (quadResult T A B C D (generic_bound n)) := by
  have := quad_scalar_loop T A B C D 0 (generic_bound n) (Nat.zero_le _) hT hA hB hC hD
  simpa [quadResult, overwritePrefix_zero] using this

theorem a_sse2_leftovers_eq (n : Nat) : a_sse2_leftovers n = generic_bound n % 8 := by
  unfold a_sse2_leftovers a_sse2_num_bytes generic_bound
  have := Nat.and_pow_two_sub_one_eq_mod ((n * 2 % 2 ^ 32) >>> 1) 3
  norm_num at this ⊢
  exact this

theorem a_sse2_bound_eq (n : Nat) : a_sse2_bound n = generic_bound n / 8 := by
  unfold a_sse2_bound a_sse2_num_bytes generic_bound
  rw [Nat.shiftRight_eq_div_pow, Nat.shiftRight_eq_div_pow]; omega

theorem scalar_select_cases (a b : Int) : scalar_select a b = a ∨ scalar_select a b = b := by
  unfold scalar_select; split
  · exact Or.inl rfl
  · exact Or.inr rfl

theorem scalar_select_eq_max (a b : Int) (h1 : -32768 ≤ a - b) (h2 : a - b ≤ 32767) :
    scalar_select a b = max a b := by
  unfold scalar_select toShort
  split <;> omega

theorem getElem?_swapped_ge (buf : List Nat) (n j : Nat) (hn : n ≤ buf.length) (hj : n ≤ j) :
    (swapped buf n)[j]? = buf[j]? := by
  rw [getElem?_swapped _ _ _ hn, if_neg (by omega)]

theorem readBlock_split {α : Type} (mem : List α) (p a b : Nat) (c : List α)
    (h : readBlock mem p (a + b) = some c) :
    readBlock mem p a = some (c.take a) ∧ readBlock mem (p + a) b = some (c.drop a) := by
  obtain ⟨hle, hc, _⟩ := readBlock_some _ _ _ _ h
  subst hc
  unfold readBlock
  rw [if_pos (by omega), if_pos (by omega)]
  constructor
  · congr 1
    rw [List.take_take]
    congr 1; omega
  · congr 1
    rw [List.drop_take, List.drop_drop]
    congr 1; omega

theorem readBlock_writeBlock_after {α : Type} (mem : List α) (p : Nat) (u m1 : List α) (k : Nat)
    (h : writeBlock mem p u = some m1) :
    readBlock m1 (p + u.length) k = readBlock mem (p + u.length) k := by
  unfold writeBlock at h
  split at h
  · rename_i hle
    have e : List.take p mem ++ u ++ List.drop (p + u.length) mem = m1 := by simpa using h
    subst e
    have hl : (List.take p mem ++ u).length = p + u.length := by simp; omega
    unfold readBlock
    have hlen : (List.take p mem ++ u ++ List.drop (p + u.length) mem).length = mem.length := by
      simp; omega
    rw [hlen]
    have hd : List.drop (p + u.length) (List.take p mem ++ u ++ List.drop (p + u.length) mem)
        = List.drop (p + u.length) mem := by
      rw [← hl, List.drop_left]
    rw [hd]
  · cases h

theorem neonv8_shuffle_eq (w0 w1 w2 w3 : Nat) :
    vqtbl1q_u8 (toBytes [w0, w1, w2, w3])
        [3, 2, 1, 0, 7, 6, 5, 4, 11, 10, 9, 8, 15, 14, 13, 12]
      = wordBytesRev w0 ++ wordBytesRev w1 ++ wordBytesRev w2 ++ wordBytesRev w3 := by
  rfl

theorem neonv8_half (chunk : List Nat) (hl : chunk.length = 4) (hb : ∀ w ∈ chunk, w < 2 ^ 32) :
    fromBytes (vqtbl1q_u8 (toBytes chunk) [3, 2, 1, 0, 7, 6, 5, 4, 11, 10, 9, 8, 15, 14, 13, 12])
      = chunk.map byteswap_scalar := by
  match chunk, hl, hb with
  | [w0, w1, w2, w3], _, hb =>
    simp only [List.mem_cons, List.mem_singleton, forall_eq_or_imp, forall_eq,
      List.not_mem_nil] at hb
    obtain ⟨h0, h1, h2, h3, _⟩ := hb
    rw [neonv8_shuffle_eq]
    simp only [List.append_assoc]
    rw [fromBytes_rev w0 h0, fromBytes_rev w1 h1, fromBytes_rev w2 h2]
    have := fromBytes_rev w3 h3 []
    simp only [List.append_nil] at this
    rw [this]
    rfl

theorem neonv8_body_eq (i : Nat) (mem : List Nat) (p : Nat) (chunk : List Nat)
    (hr : readBlock mem p 8 = some chunk) (hc : ∀ w ∈ chunk, w < 2 ^ 32) :
    neonv8_body i ⟨mem, p⟩ = (writeBlock mem p (chunk.map byteswap_scalar)).map
      (fun m => ⟨m, p + 8⟩) := by
  obtain ⟨hlen, _, hl⟩ := readBlock_some _ _ _ _ hr
  obtain ⟨r1, r2⟩ := readBlock_split mem p 4 4 chunk hr
  have l1 : (chunk.take 4).length = 4 := by simp; omega
  have l2 : (chunk.drop 4).length = 4 := by simp; omega
  have c1 : ∀ w ∈ chunk.take 4, w < 2 ^ 32 := fun w hw => hc w (List.mem_of_mem_take hw)
  have c2 : ∀ w ∈ chunk.drop 4, w < 2 ^ 32 := fun w hw => hc w (List.mem_of_mem_drop hw)
  obtain ⟨m1, e1, _⟩ := writeBlock_ok mem p ((chunk.take 4).map byteswap_scalar)
    (by simp; omega)
  have r2' := readBlock_writeBlock_after mem p _ m1 4 e1
  simp only [List.length_map, l1] at r2'
  have ha := writeBlock_append mem p ((chunk.take 4).map byteswap_scalar)
    ((chunk.drop 4).map byteswap_scalar) (by simp; omega)
  rw [e1, Option.some_bind, ← List.map_append, List.take_append_drop] at ha
  simp only [List.length_map, l1] at ha
  simp only [neonv8_body, VOLK_PREFETCH, vld1q_u8, vst1q_u8, r1, Option.map_some',
    Option.some_bind, neonv8_half _ l1 c1, e1, r2', r2, neonv8_half _ l2 c2, ha]

theorem neonv8_eq (buf : List Nat) (hb : ∀ w ∈ buf, w < 2 ^ 32) (n : Nat) (hn : n ≤ buf.length) :
    volk_32u_byteswap_neonv8 buf n = some (swapped buf n) :=
  vector_variant 8 neonv8_body neonv8_body_eq buf hb n hn

theorem u_sse2_body_eq (i : Nat) (mem : List Nat) (p : Nat) (chunk : List Nat)
    (hr : readBlock mem p 4 = some chunk) (hc : ∀ w ∈ chunk, w < 2 ^ 32) :
    u_sse2_body i ⟨mem, p⟩ = (writeBlock mem p (chunk.map byteswap_scalar)).map
      (fun m => ⟨m, p + 4⟩) := by
  simp only [u_sse2_body, mm_loadu_si128, mm_storeu_si128, hr, Option.some_bind]
  rw [sse2_swap_eq chunk (readBlock_some _ _ _ _ hr).2.2 hc]

theorem u_avx2_body_eq (i : Nat) (mem : List Nat) (p : Nat) (chunk : List Nat)
    (hr : readBlock mem p 8 = some chunk) (hc : ∀ w ∈ chunk, w < 2 ^ 32) :
    u_avx2_body i ⟨mem, p⟩ = (writeBlock mem p (chunk.map byteswap_scalar)).map
      (fun m => ⟨m, p + 8⟩) := by
  simp only [u_avx2_body, mm256_loadu_si256, mm256_storeu_si256, hr, Option.map_some',
    Option.some_bind]
  rw [avx2_chunk chunk (readBlock_some _ _ _ _ hr).2.2 hc]

theorem getElem?_swapped_some (buf : List Nat) (k i w : Nat) (hk : k ≤ buf.length)
    (hw : buf[i]? = some w) :
    (swapped buf k)[i]? = some (if i < k then byteswap_scalar w else w) := by
  rw [getElem?_swapped _ _ _ hk, hw]
  split <;> rfl

theorem tail_rule (W : Nat) (body : Nat → SwapState → Option SwapState)
    (hbody : ∀ i mem p chunk, readBlock mem p W = some chunk → (∀ w ∈ chunk, w < 2 ^ 32) →
      body i ⟨mem, p⟩ = (writeBlock mem p (chunk.map byteswap_scalar)).map
        (fun m => ⟨m, p + W⟩))
    (buf : List Nat) (hb : ∀ w ∈ buf, w < 2 ^ 32) (n : Nat) (hn : n ≤ buf.length) :
    ∃ mid fin,
      forRange body 0 (n / W) ⟨buf, 0⟩ = some ⟨mid, n - n % W⟩ ∧
      forRange scalar_body (n / W * W) n ⟨mid, n - n % W⟩ = some ⟨fin, n⟩ ∧
      ((forRange body 0 (n / W) ⟨buf, 0⟩).bind fun s =>
        forRange scalar_body (n / W * W) n s).map SwapState.mem = some fin ∧
      (∀ i w, buf[i]? = some w →
        mid[i]? = some (if i < n - n % W then byteswap_scalar w else w)) ∧
      (∀ i w, buf[i]? = some w → fin[i]? = some (if i < n then byteswap_scalar w else w)) ∧
      n / W * W = n - n % W ∧ n - n / W * W = n % W := by
  have hdm := Nat.div_add_mod n W
  have hle : n / W * W ≤ n := Nat.div_mul_le_self n W
  have e : n / W * W = n - n % W := by rw [Nat.mul_comm]; omega
  have hml : n % W ≤ n := Nat.mod_le n W
  refine ⟨swapped buf (n - n % W), swapped buf n, ?_, ?_, ?_, ?_, ?_, e, by omega⟩
  · rw [← e]; exact chunk_loop W body hbody buf hb (n / W) (by omega)
  · rw [← e]; exact scalar_loop buf _ _ hle hn
  · exact vector_variant W body hbody buf hb n hn
  · intro i w hw; exact getElem?_swapped_some buf _ i w (by omega) hw
  · intro i w hw; exact getElem?_swapped_some buf _ i w hn hw

theorem sse2_lane_final (a b c d : Int) (ha : isShort a) (hb : isShort b) (hc : isShort c)
    (hd : isShort d) :
    ofBits16 (toBits16 (sse2_select (sse2_select a b) (sse2_select c d)))
      = sse2_select (sse2_select a b) (sse2_select c d) :=
  ofBits16_toBits16 _ (isShort_sse2_select _ _ (isShort_sse2_select a b ha hb)
    (isShort_sse2_select c d hc hd))

theorem sse2_chunk (A B C D : List Int) (hA : A.length = 8) (hB : B.length = 8)
    (hC : C.length = 8) (hD : D.length = 8) (sA : ∀ x ∈ A, isShort x) (sB : ∀ x ∈ B, isShort x)
    (sC : ∀ x ∈ C, isShort x) (sD : ∀ x ∈ D, isShort x) :
    (a_sse2_regs (A.map toBits16) (B.map toBits16) (C.map toBits16) (D.map toBits16)).2.2.map
      ofBits16 = quadList sse2_select A B C D := by
  rw [a_sse2_regs_eq A B C D hA hB hC hD]
  match A, hA, B, hB, C, hC, D, hD, sA, sB, sC, sD with
  | [a0, a1, a2, a3, a4, a5, a6, a7], _, [b0, b1, b2, b3, b4, b5, b6, b7], _,
    [c0, c1, c2, c3, c4, c5, c6, c7], _, [d0, d1, d2, d3, d4, d5, d6, d7], _, sA, sB, sC, sD =>
    simp only [List.mem_cons, List.mem_singleton, forall_eq_or_imp, forall_eq,
      List.not_mem_nil] at sA sB sC sD
    simp only [quadList, List.zipWith, List.map]
    rw [sse2_lane_final a0 b0 c0 d0 sA.1 sB.1 sC.1 sD.1,
      sse2_lane_final a1 b1 c1 d1 sA.2.1 sB.2.1 sC.2.1 sD.2.1,
      sse2_lane_final a2 b2 c2 d2 sA.2.2.1 sB.2.2.1 sC.2.2.1 sD.2.2.1,
      sse2_lane_final a3 b3 c3 d3 sA.2.2.2.1 sB.2.2.2.1 sC.2.2.2.1 sD.2.2.2.1,
      sse2_lane_final a4 b4 c4 d4 sA.2.2.2.2.1 sB.2.2.2.2.1 sC.2.2.2.2.1 sD.2.2.2.2.1,
      sse2_lane_final a5 b5 c5 d5 sA.2.2.2.2.2.1 sB.2.2.2.2.2.1 sC.2.2.2.2.2.1 sD.2.2.2.2.2.1,
      sse2_lane_final a6 b6 c6 d6 sA.2.2.2.2.2.2.1 sB.2.2.2.2.2.2.1 sC.2.2.2.2.2.2.1
        sD.2.2.2.2.2.2.1,
      sse2_lane_final a7 b7 c7 d7 sA.2.2.2.2.2.2.2.1 sB.2.2.2.2.2.2.2.1 sC.2.2.2.2.2.2.2.1
        sD.2.2.2.2.2.2.2.1]

theorem mm_load_si128_eq (mem : List Int) (p : Nat) (h : 8 * p + 8 ≤ mem.length) :
    mm_load_si128 mem p = some (((mem.drop (8 * p)).take 8).map toBits16) := by
  simp [mm_load_si128, readBlock, h]

theorem quad_sse2_loop (T A B C D : List Int) (m : Nat)
    (hT : 8 * m ≤ T.length) (hA : 8 * m ≤ A.length) (hB : 8 * m ≤ B.length)
    (hC : 8 * m ≤ C.length) (hD : 8 * m ≤ D.length)
    (sA : ∀ x ∈ A, isShort x) (sB : ∀ x ∈ B, isShort x)
    (sC : ∀ x ∈ C, isShort x) (sD : ∀ x ∈ D, isShort x) :
    forLoop (quad_sse2_body A B C D) m 0 ⟨T, 0, 0, 0, 0, 0⟩
      = some ⟨overwritePrefix (quadList sse2_select A B C D) T (8 * m), m, m, m, m, m⟩ := by
  have hlen := length_quadList sse2_select A B C D
  have hstep : ∀ i t, 0 ≤ i → i < 0 + m →
      t = (⟨overwritePrefix (quadList sse2_select A B C D) T (8 * i), i, i, i, i, i⟩ : QuadSse2State) →
      ∃ t', quad_sse2_body A B C D i t = some t' ∧
        t' = ⟨overwritePrefix (quadList sse2_select A B C D) T (8 * (i + 1)),
          i + 1, i + 1, i + 1, i + 1, i + 1⟩ := by
    intro i t _ hi2 ht
    subst ht
    refine ⟨_, ?_, rfl⟩
    have lA := mm_load_si128_eq A i (by omega)
    have lB := mm_load_si128_eq B i (by omega)
    have lC := mm_load_si128_eq C i (by omega)
    have lD := mm_load_si128_eq D i (by omega)
    unfold quad_sse2_body
    dsimp only
    rw [lA, lB, lC, lD]
    rw [Option.some_bind, Option.some_bind, Option.some_bind, Option.some_bind]
    unfold mm_store_si128
    rw [sse2_chunk _ _ _ _ (length_take_drop A _ 8 (by omega))
        (length_take_drop B _ 8 (by omega)) (length_take_drop C _ 8 (by omega))
        (length_take_drop D _ 8 (by omega)) (mem_take_drop A _ _ _ sA)
        (mem_take_drop B _ _ _ sB) (mem_take_drop C _ _ _ sC) (mem_take_drop D _ _ _ sD)]
    rw [← take_drop_quadList]
    rw [writeBlock_overwritePrefix _ _ _ _ (by omega) (by omega)]
    have hs : 8 * (i + 1) = 8 * i + 8 := by omega
    rw [hs]
    simp only [Option.map_some']
  obtain ⟨s', h1, h2⟩ := forLoop_inv (quad_sse2_body A B C D)
    (fun i s => s = ⟨overwritePrefix (quadList sse2_select A B C D) T (8 * i), i, i, i, i, i⟩)
    m 0 ⟨T, 0, 0, 0, 0, 0⟩ (by simp only [Nat.mul_zero, overwritePrefix_zero]) hstep
  simp only [Nat.zero_add] at h2
  rw [h1, h2]

theorem overwritePrefix_sse2QuadVals (T A B C D : List Int) (k : Nat)
    (hA : k ≤ A.length) (hB : k ≤ B.length) (hC : k ≤ C.length) (hD : k ≤ D.length) :
    overwritePrefix (sse2QuadVals A B C D k) T k
      = overwritePrefix (quadList sse2_select A B C D) T k := by
  have hlen := length_quadList sse2_select A B C D
  unfold overwritePrefix sse2QuadVals
  rw [List.take_append_of_le_length (by simp; omega), List.take_take]
  simp

theorem getElem?_sse2QuadVals (A B C D : List Int) (k i : Nat)
    (hA : k ≤ A.length) (hB : k ≤ B.length) (hC : k ≤ C.length) (hD : k ≤ D.length) :
    (sse2QuadVals A B C D k)[i]? = if i < k then (quadList sse2_select A B C D)[i]?
      else (quadList scalar_select A B C D)[i]? := by
  have h1 := length_quadList sse2_select A B C D
  unfold sse2QuadVals
  have hl : ((quadList sse2_select A B C D).take k).length = k := by simp; omega
  by_cases h : i < k
  · rw [List.getElem?_append_left (by omega), if_pos h, List.getElem?_take_of_lt h]
  · rw [List.getElem?_append_right (by omega), if_neg h, hl, List.getElem?_drop]
    congr 1; omega

theorem quad_scalar_loop_vals (vals T A B C D : List Int) (lo hi : Nat) (hle : lo ≤ hi)
    (hT : hi ≤ T.length) (hA : hi ≤ A.length) (hB : hi ≤ B.length) (hC : hi ≤ C.length)
    (hD : hi ≤ D.length)
    (hvals : ∀ i, lo ≤ i → i < hi → vals[i]? = (quadList scalar_select A B C D)[i]?) :
    forRange (quad_scalar_body A B C D) lo hi (overwritePrefix vals T lo)
      = some (overwritePrefix vals T hi) := by
  obtain ⟨s', h1, h2⟩ := forRange_inv (quad_scalar_body A B C D)
    (fun i s => s = overwritePrefix vals T i) lo hi _ hle rfl (by
      intro i t hi1 hi2 ht
      subst ht
      refine ⟨overwritePrefix vals T (i + 1), ?_, rfl⟩
      have ea : A[i]? = some A[i] := List.getElem?_eq_getElem (by omega)
      have eb : B[i]? = some B[i] := List.getElem?_eq_getElem (by omega)
      have ec : C[i]? = some C[i] := List.getElem?_eq_getElem (by omega)
      have ed : D[i]? = some D[i] := List.getElem?_eq_getElem (by omega)
      have rt : ∀ (m : List Int) (j : Nat), readAt m j = m[j]? := fun _ _ => rfl
      simp only [quad_scalar_body, rt, ea, eb, ec, ed, Option.some_bind]
      exact writeAt_overwritePrefix _ _ _ _ (by omega)
        ((hvals i hi1 hi2).trans (getElem?_quadList scalar_select A B C D i _ _ _ _ ea eb ec ed)))
  rw [h1, h2]

theorem quad_a_sse2_eq (T A B C D : List Int) (n : Nat)
    (hT : generic_bound n ≤ T.length) (hA : generic_bound n ≤ A.length)
    (hB : generic_bound n ≤ B.length) (hC : generic_bound n ≤ C.length)
    (hD : generic_bound n ≤ D.length)
    (sA : ∀ x ∈ A, isShort x) (sB : ∀ x ∈ B, isShort x)
    (sC : ∀ x ∈ C, isShort x) (sD : ∀ x ∈ D, isShort x) :
    volk_16i_x4_quad_max_star_16i_a_sse2 T A B C D n
      = some (overwritePrefix (sse2QuadVals A B C D (8 * a_sse2_bound n)) T
          (generic_bound n)) := by
  have hb := a_sse2_bound_eq n
  have hl := a_sse2_leftovers_eq n
  have e : volk_16i_x4_quad_max_star_16i_a_sse2 T A B C D n =
      (forLoop (quad_sse2_body A B C D) (a_sse2_bound n) 0 ⟨T, 0, 0, 0, 0, 0⟩).bind fun s =>
        forRange (quad_scalar_body A B C D) (a_sse2_bound n * 8)
          (a_sse2_bound n * 8 + a_sse2_leftovers n) s.target := rfl
  have hk : 8 * a_sse2_bound n ≤ generic_bound n := by omega
  rw [e, quad_sse2_loop T A B C D _ (by omega) (by omega) (by omega) (by omega) (by omega)
    sA sB sC sD]
  simp only [Option.some_bind]
  rw [← overwritePrefix_sse2QuadVals T A B C D _ (by omega) (by omega) (by omega) (by omega)]
  have e1 : a_sse2_bound n * 8 = 8 * a_sse2_bound n := Nat.mul_comm _ _
  have e2 : 8 * a_sse2_bound n + a_sse2_leftovers n = generic_bound n := by omega
  rw [e1, e2]
  apply quad_scalar_loop_vals _ T A B C D _ _ hk hT hA hB hC hD
  intro i h1 _
  rw [getElem?_sse2QuadVals _ _ _ _ _ _ (by omega) (by omega) (by omega) (by omega),
    if_neg (by omega)]

theorem length_sse2QuadVals (A B C D : List Int) (k : Nat) :
    (sse2QuadVals A B C D k).length = min (min A.length B.length) (min C.length D.length) := by
  have h1 := length_quadList sse2_select A B C D
  have h2 := length_quadList scalar_select A B C D
  unfold sse2QuadVals
  rw [List.length_append, List.length_take, List.length_drop, h1, h2]
  omega

theorem sse2_select_eq_scalar (a b : Int) (ha : isShort a) (hb : isShort b)
    (h : toShort (a - b) ≠ -32768) : sse2_select a b = scalar_select a b := by
  unfold isShort at ha hb
  unfold toShort at h
  unfold sse2_select scalar_select toShort
  split <;> split <;> omega

theorem isShort_of_getElem? (A : List Int) (sA : ∀ x ∈ A, isShort x) (i : Nat) (a : Int)
    (ha : A[i]? = some a) : isShort a :=
  sA a (List.getElem?_mem ha)

theorem store_read (store : List (List Int)) (tgt s : Nat) (T A vals : List Int) (k : Nat)
    (hT : store[tgt]? = some T) (hA : store[s]? = some A) (hk : k ≤ vals.length) :
    ((store.set tgt (overwritePrefix vals T k))[s]?.bind fun m => readAt m k) = A[k]? := by
  by_cases h : tgt = s
  · subst h
    have hTA : T = A := by rw [hT] at hA; exact Option.some.inj hA
    subst hTA
    have hlt : tgt < store.length := by
      rcases Nat.lt_or_ge tgt store.length with h | h
      · exact h
      · rw [List.getElem?_eq_none h] at hT; cases hT
    rw [List.getElem?_set_self hlt, Option.some_bind, readAt_overwritePrefix _ _ _ hk]
  · rw [List.getElem?_set_ne h, hA, Option.some_bind]; rfl

theorem quad_store_loop (store : List (List Int)) (tgt p0 p1 p2 p3 : Nat)
    (T A B C D : List Int) (hi : Nat)
    (eT : store[tgt]? = some T) (eA : store[p0]? = some A) (eB : store[p1]? = some B)
    (eC : store[p2]? = some C) (eD : store[p3]? = some D)
    (hT : hi ≤ T.length) (hA : hi ≤ A.length) (hB : hi ≤ B.length) (hC : hi ≤ C.length)
    (hD : hi ≤ D.length) :
    forRange (quad_scalar_body_store tgt p0 p1 p2 p3) 0 hi store
      = some (store.set tgt (quadResult T A B C D hi)) := by
  have hlen := length_quadList scalar_select A B C D
  have hlt : tgt < store.length := by
    rcases Nat.lt_or_ge tgt store.length with h | h
    · exact h
    · rw [List.getElem?_eq_none h] at eT; cases eT
  have h00 : store = store.set tgt (quadResult T A B C D 0) := by
    unfold quadResult
    rw [overwritePrefix_zero]
    apply List.ext_getElem?
    intro j
    by_cases h : tgt = j
    · subst h; rw [List.getElem?_set_self hlt, eT]
    · rw [List.getElem?_set_ne h]
  obtain ⟨s', h1, h2⟩ := forRange_inv (quad_scalar_body_store tgt p0 p1 p2 p3)
    (fun i s => s = store.set tgt (quadResult T A B C D i)) 0 hi store (Nat.zero_le _) h00 (by
      intro i t _ hi2 ht
      subst ht
      refine ⟨store.set tgt (quadResult T A B C D (i + 1)), ?_, rfl⟩
      have ea : A[i]? = some A[i] := List.getElem?_eq_getElem (by omega)
      have eb : B[i]? = some B[i] := List.getElem?_eq_getElem (by omega)
      have ec : C[i]? = some C[i] := List.getElem?_eq_getElem (by omega)
      have ed : D[i]? = some D[i] := List.getElem?_eq_getElem (by omega)
      unfold quad_scalar_body_store quadResult
      rw [store_read store tgt p0 T A _ i eT eA (by omega),
        store_read store tgt p1 T B _ i eT eB (by omega),
        store_read store tgt p2 T C _ i eT eC (by omega),
        store_read store tgt p3 T D _ i eT eD (by omega), ea, eb, ec, ed]
      simp only [Option.some_bind]
      rw [List.getElem?_set_self hlt, Option.some_bind,
        writeAt_overwritePrefix _ _ _ _ (by omega)
          (getElem?_quadList scalar_select A B C D i _ _ _ _ ea eb ec ed)]
      simp only [Option.map_some', List.set_set])
  rw [h1, h2]

theorem quad_generic_store_eq (store : List (List Int)) (tgt p0 p1 p2 p3 : Nat)
    (T A B C D : List Int) (n : Nat)
    (eT : store[tgt]? = some T) (eA : store[p0]? = some A) (eB : store[p1]? = some B)
    (eC : store[p2]? = some C) (eD : store[p3]? = some D)
    (hT : generic_bound n ≤ T.length) (hA : generic_bound n ≤ A.length)
    (hB : generic_bound n ≤ B.length) (hC : generic_bound n ≤ C.length)
    (hD : generic_bound n ≤ D.length) :
    volk_16i_x4_quad_max_star_16i_generic_store tgt p0 p1 p2 p3 n store
      = some (store.set tgt (quadResult T A B C D (generic_bound n))) :=
  quad_store_loop store tgt p0 p1 p2 p3 T A B C D _ eT eA eB eC eD hT hA hB hC hD

theorem getElem?_quadResult_indep (T T' A B C D : List Int) (n i : Nat) (hi : i < n)
    (hA : n ≤ A.length) (hB : n ≤ B.length) (hC : n ≤ C.length) (hD : n ≤ D.length) :
    (quadResult T A B C D n)[i]? = (quadResult T' A B C D n)[i]? := by
  have hlen := length_quadList scalar_select A B C D
  unfold quadResult
  rw [getElem?_overwritePrefix _ _ _ _ (by omega), getElem?_overwritePrefix _ _ _ _ (by omega),
    if_pos hi, if_pos hi]

/-! ## The stated properties, continued -/

/-- C11: for every buffer of words below `2 ^ 32` and every `num_points` not
exceeding its length, `volk_32u_byteswap_generic`, `volk_32u_byteswap_u_sse2`
and `volk_32u_byteswap_u_avx2` return a buffer of the same length whose
elements at the indices `j >= num_points` are those of the input; with
`num_points = 0` each returns the input buffer. -/
theorem byteswap_frame (intsToSwap : List Nat) (num_points : Nat)
    (hb : ∀ w ∈ intsToSwap, w < 2 ^ 32) (hn : num_points ≤ intsToSwap.length) :
    (∃ out, volk_32u_byteswap_generic intsToSwap num_points = some out ∧
      out.length = intsToSwap.length ∧ ∀ j, num_points ≤ j → out[j]? = intsToSwap[j]?) ∧
    (∃ out, volk_32u_byteswap_u_sse2 intsToSwap num_points = some out ∧
      out.length = intsToSwap.length ∧ ∀ j, num_points ≤ j → out[j]? = intsToSwap[j]?) ∧
    (∃ out, volk_32u_byteswap_u_avx2 intsToSwap num_points = some out ∧
      out.length = intsToSwap.length ∧ ∀ j, num_points ≤ j → out[j]? = intsToSwap[j]?) ∧
    volk_32u_byteswap_generic intsToSwap 0 = some intsToSwap ∧
    volk_32u_byteswap_u_sse2 intsToSwap 0 = some intsToSwap ∧
    volk_32u_byteswap_u_avx2 intsToSwap 0 = some intsToSwap :=
  ⟨⟨_, generic_eq _ _ hn, length_swapped _ _ hn, fun _ hj => getElem?_swapped_ge _ _ _ hn hj⟩,
    ⟨_, u_sse2_eq _ hb _ hn, length_swapped _ _ hn,
      fun _ hj => getElem?_swapped_ge _ _ _ hn hj⟩,
    ⟨_, u_avx2_eq _ hb _ hn, length_swapped _ _ hn,
      fun _ hj => getElem?_swapped_ge _ _ _ hn hj⟩,
    rfl, rfl, rfl⟩

/-- Witness of C11 on eleven words with count 9: the words at 9 and 10 stay. -/
theorem byteswap_frame_witness :
    (∃ out, volk_32u_byteswap_generic
        [1, 2, 3, 0xFFFFFFFF, 0x5A5A5A5A, 6, 7, 0x12345678, 0x80000000, 10, 11] 9 = some out ∧
      out[9]? = some 10 ∧ out[10]? = some 11) ∧
    (∃ out, volk_32u_byteswap_u_sse2
        [1, 2, 3, 0xFFFFFFFF, 0x5A5A5A5A, 6, 7, 0x12345678, 0x80000000, 10, 11] 9 = some out ∧
      out[9]? = some 10 ∧ out[10]? = some 11) ∧
    (∃ out, volk_32u_byteswap_u_avx2
        [1, 2, 3, 0xFFFFFFFF, 0x5A5A5A5A, 6, 7, 0x12345678, 0x80000000, 10, 11] 9 = some out ∧
      out[9]? = some 10 ∧ out[10]? = some 11) := by
  obtain ⟨⟨o1, e1, _, f1⟩, ⟨o2, e2, _, f2⟩, ⟨o3, e3, _, f3⟩, _⟩ := byteswap_frame
    [1, 2, 3, 0xFFFFFFFF, 0x5A5A5A5A, 6, 7, 0x12345678, 0x80000000, 10, 11] 9
    (by decide) (by decide)
  exact ⟨⟨o1, e1, f1 9 (by decide), f1 10 (by decide)⟩,
    ⟨o2, e2, f2 9 (by decide), f2 10 (by decide)⟩,
    ⟨o3, e3, f3 9 (by decide), f3 10 (by decide)⟩⟩

/-- C12 (evaluation at the failing input): the loop bound of
`volk_16i_x4_quad_max_star_16i_generic` is `num_points` modulo `2 ^ 31`; for
`num_points = 2147483648` it is `0`, and the kernel returns the target buffer
as it got it, whatever the five buffers are. -/
theorem quad_generic_bound_wraps :
    generic_bound 2147483648 = 0 ∧
    (∀ T A B C D : List Int,
      volk_16i_x4_quad_max_star_16i_generic T A B C D 2147483648 = some T) ∧
    (∀ T A B C D : List Int, ∀ n : Nat, volk_16i_x4_quad_max_star_16i_generic T A B C D n
      = forRange (quad_scalar_body A B C D) 0 (generic_bound n) T) ∧
    ∀ n : Nat, generic_bound n = n % 2 ^ 31 :=
  ⟨by decide, fun _ _ _ _ _ => rfl, fun _ _ _ _ _ _ => rfl, generic_bound_eq⟩

/-- C13: for every buffer of words below `2 ^ 32` and every `num_points` not
exceeding its length, in `volk_32u_byteswap_u_avx2` and
`volk_32u_byteswap_neon` (`W = 8`) and in `volk_32u_byteswap_u_sse2` (`W = 4`)
the vector loop runs `num_points / W` times and leaves `inputPtr` at
`num_points - num_points % W` with exactly the words before it swapped once and
the others as they were; the scalar tail starts at `num_points / W * W`, which
is that index, runs over the `num_points % W` indices up to `num_points`, and
leaves every word below `num_points` swapped once and the others as they
were. -/
theorem byteswap_tail_rule (intsToSwap : List Nat) (num_points : Nat)
    (hb : ∀ w ∈ intsToSwap, w < 2 ^ 32) (hn : num_points ≤ intsToSwap.length) :
    (∃ mid fin,
      forRange u_avx2_body 0 (num_points / 8) ⟨intsToSwap, 0⟩
        = some ⟨mid, num_points - num_points % 8⟩ ∧
      forRange scalar_body (num_points / 8 * 8) num_points
        ⟨mid, num_points - num_points % 8⟩ = some ⟨fin, num_points⟩ ∧
      volk_32u_byteswap_u_avx2 intsToSwap num_points = some fin ∧
      (∀ i w, intsToSwap[i]? = some w →
        mid[i]? = some (if i < num_points - num_points % 8 then byteswap_scalar w else w)) ∧
      (∀ i w, intsToSwap[i]? = some w →
        fin[i]? = some (if i < num_points then byteswap_scalar w else w))) ∧
    (∃ mid fin,
      forRange neon_body 0 (num_points / 8) ⟨intsToSwap, 0⟩
        = some ⟨mid, num_points - num_points % 8⟩ ∧
      forRange scalar_body (num_points / 8 * 8) num_points
        ⟨mid, num_points - num_points % 8⟩ = some ⟨fin, num_points⟩ ∧
      volk_32u_byteswap_neon intsToSwap num_points = some fin ∧
      (∀ i w, intsToSwap[i]? = some w →
        mid[i]? = some (if i < num_points - num_points % 8 then byteswap_scalar w else w)) ∧
      (∀ i w, intsToSwap[i]? = some w →
        fin[i]? = some (if i < num_points then byteswap_scalar w else w))) ∧
    (∃ mid fin,
      forRange u_sse2_body 0 (num_points / 4) ⟨intsToSwap, 0⟩
        = some ⟨mid, num_points - num_points % 4⟩ ∧
      forRange scalar_body (num_points / 4 * 4) num_points
        ⟨mid, num_points - num_points % 4⟩ = some ⟨fin, num_points⟩ ∧
      volk_32u_byteswap_u_sse2 intsToSwap num_points = some fin ∧
      (∀ i w, intsToSwap[i]? = some w →
        mid[i]? = some (if i < num_points - num_points % 4 then byteswap_scalar w else w)) ∧
      (∀ i w, intsToSwap[i]? = some w →
        fin[i]? = some (if i < num_points then byteswap_scalar w else w))) ∧
    num_points / 8 * 8 = num_points - num_points % 8 ∧
    num_points - num_points / 8 * 8 = num_points % 8 ∧
    num_points / 4 * 4 = num_points - num_points % 4 ∧
    num_points - num_points / 4 * 4 = num_points % 4 := by
  obtain ⟨m1, f1, a1, b1, k1, c1, d1, e1, g1⟩ :=
    tail_rule 8 u_avx2_body u_avx2_body_eq intsToSwap hb num_points hn
  obtain ⟨m2, f2, a2, b2, k2, c2, d2, _, _⟩ :=
    tail_rule 8 neon_body neon_body_eq intsToSwap hb num_points hn
  obtain ⟨m3, f3, a3, b3, k3, c3, d3, e3, g3⟩ :=
    tail_rule 4 u_sse2_body u_sse2_body_eq intsToSwap hb num_points hn
  exact ⟨⟨m1, f1, a1, b1, k1, c1, d1⟩, ⟨m2, f2, a2, b2, k2, c2, d2⟩,
    ⟨m3, f3, a3, b3, k3, c3, d3⟩, e1, g1, e3, g3⟩

/-- Witness of C13 on eleven words with count 10 in the SSE2 kernel: the vector
loop stops at index 8, the tail handles the indices 8 and 9. -/
theorem byteswap_tail_rule_witness :
    ∃ mid fin,
      forRange u_sse2_body 0 (10 / 4)
        ⟨[1, 2, 3, 0xFFFFFFFF, 0x5A5A5A5A, 6, 7, 0x12345678, 0x80000000, 10, 11], 0⟩
        = some ⟨mid, 10 - 10 % 4⟩ ∧
      forRange scalar_body (10 / 4 * 4) 10 ⟨mid, 10 - 10 % 4⟩ = some ⟨fin, 10⟩ ∧
      volk_32u_byteswap_u_sse2
        [1, 2, 3, 0xFFFFFFFF, 0x5A5A5A5A, 6, 7, 0x12345678, 0x80000000, 10, 11] 10
        = some fin ∧
      mid[7]? = some 0x78563412 ∧ mid[8]? = some 0x80000000 ∧
      fin[8]? = some 0x00000080 ∧ fin[10]? = some 11 := by
  obtain ⟨_, _, ⟨mid, fin, a, b, k, c, d⟩, _⟩ := byteswap_tail_rule
    [1, 2, 3, 0xFFFFFFFF, 0x5A5A5A5A, 6, 7, 0x12345678, 0x80000000, 10, 11] 10
    (by decide) (by decide)
  exact ⟨mid, fin, a, b, k, c 7 0x12345678 (by decide), c 8 0x80000000 (by decide),
    d 8 0x80000000 (by decide), d 10 11 (by decide)⟩

/-- C14: there are shorts `a, b, c, d`, with a 16-bit difference `a - b` that
wraps around, for which `volk_16i_x4_quad_max_star_16i_generic` writes,
whatever the target held before, a value `v` that is not the maximum of the
four: for `a = -32768, b = 1, c = d = 7` it writes `-32768`. -/
theorem quad_generic_not_max :
    ∃ a b c d v : Int, isShort a ∧ isShort b ∧ isShort c ∧ isShort d ∧
      toShort (a - b) ≠ a - b ∧
      (∀ t0 : Int,
        volk_16i_x4_quad_max_star_16i_generic [t0] [a] [b] [c] [d] 1 = some [v]) ∧
      v ≠ max (max a b) (max c d) := by
  refine ⟨-32768, 1, 7, 7, -32768, by decide, by decide, by decide, by decide, by decide,
    ?_, by decide⟩
  intro t0
  have e : quadList scalar_select [-32768] [1] [7] [7] = [-32768] := by decide
  rw [quad_generic_eq [t0] [-32768] [1] [7] [7] 1 (by decide) (Nat.le_refl 1) (by decide)
    (by decide) (by decide) (by decide)]
  unfold quadResult overwritePrefix
  rw [e]
  rfl

/-- C15: for every buffer of words below `2 ^ 32` and every `num_points` not
exceeding its length, `volk_32u_byteswap_neonv8` (per iteration two lookups of
16 bytes with the index vector `{3,2,1,0,7,6,5,4,11,10,9,8,15,14,13,12}`,
advancing four words each, for `num_points / 8` iterations, then the scalar
tail from `num_points / 8 * 8`) returns the buffer that
`volk_32u_byteswap_generic` returns. -/
theorem byteswap_neonv8_eq_generic (intsToSwap : List Nat) (num_points : Nat)
    (hb : ∀ w ∈ intsToSwap, w < 2 ^ 32) (hn : num_points ≤ intsToSwap.length) :
    ∃ out, volk_32u_byteswap_generic intsToSwap num_points = some out ∧
      volk_32u_byteswap_neonv8 intsToSwap num_points = some out :=
  ⟨swapped intsToSwap num_points, generic_eq _ _ hn, neonv8_eq _ hb _ hn⟩

/-- Witness of C15 on ten words with count 9 (one vector iteration and a tail
of one). -/
theorem byteswap_neonv8_eq_generic_witness :
    ∃ out, volk_32u_byteswap_generic
        [1, 2, 3, 0xFFFFFFFF, 0x5A5A5A5A, 6, 7, 0x12345678, 0x80000000, 10] 9 = some out ∧
      volk_32u_byteswap_neonv8
        [1, 2, 3, 0xFFFFFFFF, 0x5A5A5A5A, 6, 7, 0x12345678, 0x80000000, 10] 9 = some out :=
  byteswap_neonv8_eq_generic
    [1, 2, 3, 0xFFFFFFFF, 0x5A5A5A5A, 6, 7, 0x12345678, 0x80000000, 10] 9
    (by decide) (by decide)

/-- C16: for `num_points < 2 ^ 31` within the buffers, running
`volk_16i_x4_quad_max_star_16i_generic` on a store in which `target` is the
very buffer of `src0` (or of `src1`, `src2`, `src3`) leaves in that buffer, at
every `i < num_points`, the value that the run with a separate target buffer
`sep` on the original inputs leaves at `i`. -/
theorem quad_generic_in_place (store : List (List Int)) (src0 src1 src2 src3 : Nat)
    (A B C D sep : List Int) (num_points : Nat)
    (eA : store[src0]? = some A) (eB : store[src1]? = some B)
    (eC : store[src2]? = some C) (eD : store[src3]? = some D)
    (hn : num_points < 2 ^ 31) (hS : num_points ≤ sep.length)
    (hA : num_points ≤ A.length) (hB : num_points ≤ B.length)
    (hC : num_points ≤ C.length) (hD : num_points ≤ D.length) :
    ∃ ref, volk_16i_x4_quad_max_star_16i_generic sep A B C D num_points = some ref ∧
      (∃ out t, volk_16i_x4_quad_max_star_16i_generic_store src0 src0 src1 src2 src3
          num_points store = some out ∧ out[src0]? = some t ∧
        ∀ i, i < num_points → t[i]? = ref[i]?) ∧
      (∃ out t, volk_16i_x4_quad_max_star_16i_generic_store src1 src0 src1 src2 src3
          num_points store = some out ∧ out[src1]? = some t ∧
        ∀ i, i < num_points → t[i]? = ref[i]?) ∧
      (∃ out t, volk_16i_x4_quad_max_star_16i_generic_store src2 src0 src1 src2 src3
          num_points store = some out ∧ out[src2]? = some t ∧
        ∀ i, i < num_points → t[i]? = ref[i]?) ∧
      (∃ out t, volk_16i_x4_quad_max_star_16i_generic_store src3 src0 src1 src2 src3
          num_points store = some out ∧ out[src3]? = some t ∧
        ∀ i, i < num_points → t[i]? = ref[i]?) := by
  have hg := generic_bound_of_lt num_points hn
  have key : ∀ (tgt : Nat) (T : List Int), store[tgt]? = some T → num_points ≤ T.length →
      ∃ out t, volk_16i_x4_quad_max_star_16i_generic_store tgt src0 src1 src2 src3
          num_points store = some out ∧ out[tgt]? = some t ∧
        ∀ i, i < num_points → t[i]? = (quadResult sep A B C D num_points)[i]? := by
    intro tgt T eT hT
    have hlt : tgt < store.length := by
      rcases Nat.lt_or_ge tgt store.length with h | h
      · exact h
      · rw [List.getElem?_eq_none h] at eT; cases eT
    refine ⟨store.set tgt (quadResult T A B C D num_points),
      quadResult T A B C D num_points, ?_, ?_, ?_⟩
    · rw [quad_generic_store_eq store tgt src0 src1 src2 src3 T A B C D num_points eT eA eB eC
        eD (by omega) (by omega) (by omega) (by omega) (by omega), hg]
    · exact List.getElem?_set_self hlt
    · intro i hi
      exact getElem?_quadResult_indep T sep A B C D num_points i hi hA hB hC hD
  exact ⟨quadResult sep A B C D num_points,
    quad_generic_eq sep A B C D num_points hn hS hA hB hC hD,
    key src0 A eA hA, key src1 B eB hB, key src2 C eC hC, key src3 D eD hD⟩

/-- Witness of C16 on a store of four buffers of three shorts, with `target = src0`. -/
theorem quad_generic_in_place_witness :
    ∃ ref, volk_16i_x4_quad_max_star_16i_generic [0, 0, 0] [-32768, 4, 1] [1, 4, 1]
        [7, -3, 1] [7, 2, 1] 2 = some ref ∧
      ∃ out t, volk_16i_x4_quad_max_star_16i_generic_store 0 0 1 2 3 2
          [[-32768, 4, 1], [1, 4, 1], [7, -3, 1], [7, 2, 1]] = some out ∧ out[0]? = some t ∧
        ∀ i, i < 2 → t[i]? = ref[i]? := by
  obtain ⟨ref, h, h0, _⟩ := quad_generic_in_place
    [[-32768, 4, 1], [1, 4, 1], [7, -3, 1], [7, 2, 1]] 0 1 2 3
    [-32768, 4, 1] [1, 4, 1] [7, -3, 1] [7, 2, 1] [0, 0, 0] 2 rfl rfl rfl rfl
    (by decide) (by decide) (by decide) (by decide) (by decide) (by decide)
  exact ⟨ref, h, h0⟩

/-- C17: at a position `i` that `volk_16i_x4_quad_max_star_16i_generic` writes
(`i` below the loop bound, which is `num_points` when `num_points < 2 ^ 31`),
if the exact differences `a - b`, `c - d` and `p - q` lie in
`[-32768, 32767]`, with `p`, `q` the inner selections, the value written is
`max (max a b) (max c d)`. -/
theorem quad_generic_max_without_overflow (target src0 src1 src2 src3 : List Int)
    (num_points i : Nat) (a b c d : Int)
    (hT : num_points ≤ target.length)
    (h0 : num_points ≤ src0.length) (h1 : num_points ≤ src1.length)
    (h2 : num_points ≤ src2.length) (h3 : num_points ≤ src3.length)
    (hi : i < generic_bound num_points)
    (ha : src0[i]? = some a) (hb : src1[i]? = some b)
    (hc : src2[i]? = some c) (hd : src3[i]? = some d)
    (r1 : -32768 ≤ a - b ∧ a - b ≤ 32767) (r2 : -32768 ≤ c - d ∧ c - d ≤ 32767)
    (r3 : -32768 ≤ scalar_select a b - scalar_select c d ∧
      scalar_select a b - scalar_select c d ≤ 32767) :
    (∃ out, volk_16i_x4_quad_max_star_16i_generic target src0 src1 src2 src3 num_points
        = some out ∧ out[i]? = some (max (max a b) (max c d))) ∧
    (num_points < 2 ^ 31 → generic_bound num_points = num_points) := by
  have hg := generic_bound_le num_points
  refine ⟨⟨_, quad_generic_eq_bound _ _ _ _ _ _ (by omega) (by omega) (by omega) (by omega)
    (by omega), ?_⟩, generic_bound_of_lt _⟩
  rw [getElem?_quadResult _ _ _ _ _ _ _ a b c d (by omega) (by omega) (by omega) (by omega)
    hi ha hb hc hd]
  rw [scalar_select_eq_max _ _ r3.1 r3.2, scalar_select_eq_max a b r1.1 r1.2,
    scalar_select_eq_max c d r2.1 r2.2]

/-- Witness of C17 at index 1 of three positions, where the maximum is `20000`. -/
theorem quad_generic_max_without_overflow_witness :
    ∃ out, volk_16i_x4_quad_max_star_16i_generic [0, 0, 0] [-5, 4, 1] [1, 4, 1]
        [7, -3, 1] [7, 20000, 1] 2 = some out ∧ out[1]? = some 20000 := by
  obtain ⟨⟨out, h, hv⟩, _⟩ := quad_generic_max_without_overflow [0, 0, 0] [-5, 4, 1]
    [1, 4, 1] [7, -3, 1] [7, 20000, 1] 2 1 4 4 (-3) 20000 (by decide) (by decide) (by decide)
    (by decide) (by decide) (by decide) (by decide) (by decide) (by decide) (by decide)
    (by decide) (by decide) (by decide)
  exact ⟨out, h, hv⟩

/-- C18: at a position `i` below the loop bound, holding the shorts `a, b, c, d`
for which none of the wrapped 16-bit differences `a - b`, `c - d` and `p - q`
is `-32768` (`p`, `q` the inner selections of the generic kernel),
`volk_16i_x4_quad_max_star_16i_a_sse2` and
`volk_16i_x4_quad_max_star_16i_generic` both return and leave the same value
at `i`; this covers every lane of the SSE2 vector loop. -/
theorem quad_sse2_agreement (target src0 src1 src2 src3 : List Int)
    (num_points i : Nat) (a b c d : Int)
    (hT : num_points ≤ target.length)
    (h0 : num_points ≤ src0.length) (h1 : num_points ≤ src1.length)
    (h2 : num_points ≤ src2.length) (h3 : num_points ≤ src3.length)
    (s0 : ∀ x ∈ src0, isShort x) (s1 : ∀ x ∈ src1, isShort x)
    (s2 : ∀ x ∈ src2, isShort x) (s3 : ∀ x ∈ src3, isShort x)
    (hi : i < generic_bound num_points)
    (ha : src0[i]? = some a) (hb : src1[i]? = some b)
    (hc : src2[i]? = some c) (hd : src3[i]? = some d)
    (d1 : toShort (a - b) ≠ -32768) (d2 : toShort (c - d) ≠ -32768)
    (d3 : toShort (scalar_select a b - scalar_select c d) ≠ -32768) :
    ∃ out ref v,
      volk_16i_x4_quad_max_star_16i_a_sse2 target src0 src1 src2 src3 num_points = some out ∧
      volk_16i_x4_quad_max_star_16i_generic target src0 src1 src2 src3 num_points = some ref ∧
      out[i]? = some v ∧ ref[i]? = some v := by
  have hg := generic_bound_le num_points
  have hbd := a_sse2_bound_eq num_points
  have sa := isShort_of_getElem? _ s0 i a ha
  have sb := isShort_of_getElem? _ s1 i b hb
  have sc := isShort_of_getElem? _ s2 i c hc
  have sd := isShort_of_getElem? _ s3 i d hd
  refine ⟨_, _, scalar_select (scalar_select a b) (scalar_select c d),
    quad_a_sse2_eq _ _ _ _ _ _ (by omega) (by omega) (by omega) (by omega) (by omega)
      s0 s1 s2 s3,
    quad_generic_eq_bound _ _ _ _ _ _ (by omega) (by omega) (by omega) (by omega) (by omega),
    ?_, getElem?_quadResult _ _ _ _ _ _ _ a b c d (by omega) (by omega) (by omega) (by omega)
      hi ha hb hc hd⟩
  rw [getElem?_overwritePrefix _ _ _ _ (by
      rw [length_sse2QuadVals]; omega),
    if_pos hi,
    getElem?_sse2QuadVals _ _ _ _ _ _ (by omega) (by omega) (by omega) (by omega)]
  split
  · rw [getElem?_quadList sse2_select _ _ _ _ i a b c d ha hb hc hd,
      sse2_select_eq_scalar a b sa sb d1, sse2_select_eq_scalar c d sc sd d2,
      sse2_select_eq_scalar _ _ (isShort_scalar_select a b sa sb)
        (isShort_scalar_select c d sc sd) d3]
  · exact getElem?_quadList scalar_select _ _ _ _ i a b c d ha hb hc hd

/-- Witness of C18 at lane 0 of the vector loop, on nine positions, with a
difference `-32768 - 1` that wraps to `32767`. -/
theorem quad_sse2_agreement_witness :
    ∃ out ref v,
      volk_16i_x4_quad_max_star_16i_a_sse2 [1, 1, 1, 1, 1, 1, 1, 1, 1]
        [-32768, 2, 3, 4, 5, 6, 7, 8, 9] [1, 2, 5, 4, -9, 6, 32767, 8, 9]
        [5, 2, 3, 4, 5, 6, -2, 8, 9] [5, 2, 3, 4, 5, 6, 7, 8, -9] 9 = some out ∧
      volk_16i_x4_quad_max_star_16i_generic [1, 1, 1, 1, 1, 1, 1, 1, 1]
        [-32768, 2, 3, 4, 5, 6, 7, 8, 9] [1, 2, 5, 4, -9, 6, 32767, 8, 9]
        [5, 2, 3, 4, 5, 6, -2, 8, 9] [5, 2, 3, 4, 5, 6, 7, 8, -9] 9 = some ref ∧
      out[0]? = some v ∧ ref[0]? = some v :=
  quad_sse2_agreement [1, 1, 1, 1, 1, 1, 1, 1, 1]
    [-32768, 2, 3, 4, 5, 6, 7, 8, 9] [1, 2, 5, 4, -9, 6, 32767, 8, 9]
    [5, 2, 3, 4, 5, 6, -2, 8, 9] [5, 2, 3, 4, 5, 6, 7, 8, -9] 9 0 (-32768) 1 5 5
    (by decide) (by decide) (by decide) (by decide) (by decide)
    (by decide) (by decide) (by decide) (by decide) (by decide)
    (by decide) (by decide) (by decide) (by decide)
    (by decide) (by decide) (by decide)

/-- C19: for every `num_points`, with `num_bytes = num_points * 2` modulo
`2 ^ 32`, `bound = num_bytes >> 4` and `leftovers = (num_bytes >> 1) & 7`:
`bound * 8 + leftovers` is the loop bound `num_bytes >> 1` of the generic
kernel, `leftovers <= 7`, `bound * 8 + leftovers <= 2 ^ 31 - 1`, and the tail
indices `bound * 8 <= i < bound * 8 + leftovers` are those from the last
multiple of 8 up to the generic bound. The SSE2 kernel is its vector loop run
`bound` times followed by the scalar loop over these tail indices, and the
generic kernel is the scalar loop up to its bound. -/
theorem a_sse2_index_arithmetic (num_points : Nat) :
    a_sse2_bound num_points * 8 + a_sse2_leftovers num_points = generic_bound num_points ∧
    a_sse2_leftovers num_points ≤ 7 ∧
    a_sse2_bound num_points * 8 + a_sse2_leftovers num_points ≤ 2 ^ 31 - 1 ∧
    (∀ i, (a_sse2_bound num_points * 8 ≤ i ∧
        i < a_sse2_bound num_points * 8 + a_sse2_leftovers num_points) ↔
      (generic_bound num_points - generic_bound num_points % 8 ≤ i ∧
        i < generic_bound num_points)) ∧
    (∀ T A B C D : List Int,
      volk_16i_x4_quad_max_star_16i_a_sse2 T A B C D num_points =
        (forLoop (quad_sse2_body A B C D) (a_sse2_bound num_points) 0
          ⟨T, 0, 0, 0, 0, 0⟩).bind fun s =>
          forRange (quad_scalar_body A B C D) (a_sse2_bound num_points * 8)
            (a_sse2_bound num_points * 8 + a_sse2_leftovers num_points) s.target) ∧
    (∀ T A B C D : List Int,
      volk_16i_x4_quad_max_star_16i_generic T A B C D num_points =
        forRange (quad_scalar_body A B C D) 0 (generic_bound num_points) T) := by
  have hb := a_sse2_bound_eq num_points
  have hl := a_sse2_leftovers_eq num_points
  have hg := generic_bound_eq num_points
  refine ⟨by omega, by omega, by omega, fun i => by omega, fun _ _ _ _ _ => rfl,
    fun _ _ _ _ _ => rfl⟩

/-- C20: at every position `i` that `volk_16i_x4_quad_max_star_16i_generic`
writes (`i` below the loop bound, which is `num_points` when
`num_points < 2 ^ 31`), the value written is one of `a[i]`, `b[i]`, `c[i]`,
`d[i]`, whatever the inputs. -/
theorem quad_generic_selects (target src0 src1 src2 src3 : List Int)
    (num_points i : Nat) (a b c d : Int)
    (hT : num_points ≤ target.length)
    (h0 : num_points ≤ src0.length) (h1 : num_points ≤ src1.length)
    (h2 : num_points ≤ src2.length) (h3 : num_points ≤ src3.length)
    (hi : i < generic_bound num_points)
    (ha : src0[i]? = some a) (hb : src1[i]? = some b)
    (hc : src2[i]? = some c) (hd : src3[i]? = some d) :
    (∃ out v, volk_16i_x4_quad_max_star_16i_generic target src0 src1 src2 src3 num_points
        = some out ∧ out[i]? = some v ∧ (v = a ∨ v = b ∨ v = c ∨ v = d)) ∧
    (num_points < 2 ^ 31 → generic_bound num_points = num_points) := by
  have hg := generic_bound_le num_points
  refine ⟨⟨_, _, quad_generic_eq_bound _ _ _ _ _ _ (by omega) (by omega) (by omega) (by omega)
    (by omega), getElem?_quadResult _ _ _ _ _ _ _ a b c d (by omega) (by omega) (by omega)
    (by omega) hi ha hb hc hd, ?_⟩, generic_bound_of_lt _⟩
  rcases scalar_select_cases (scalar_select a b) (scalar_select c d) with h | h
  · rw [h]
    rcases scalar_select_cases a b with h' | h'
    · exact Or.inl h'
    · exact Or.inr (Or.inl h')
  · rw [h]
    rcases scalar_select_cases c d with h' | h'
    · exact Or.inr (Or.inr (Or.inl h'))
    · exact Or.inr (Or.inr (Or.inr h'))

/-- Witness of C20 at index 0 of three positions, with a difference that wraps. -/
theorem quad_generic_selects_witness :
    ∃ out v, volk_16i_x4_quad_max_star_16i_generic [0, 0, 0] [-32768, 4, 1] [1, 4, 1]
        [7, -3, 1] [7, 2, 1] 2 = some out ∧ out[0]? = some v ∧
      (v = -32768 ∨ v = 1 ∨ v = 7 ∨ v = 7) :=
  (quad_generic_selects [0, 0, 0] [-32768, 4, 1] [1, 4, 1] [7, -3, 1] [7, 2, 1] 2 0
    (-32768) 1 7 7 (by decide) (by decide) (by decide) (by decide) (by decide) (by decide)
    (by decide) (by decide) (by decide) (by decide)).1

/-! ## Lemmas on the RVV gather indices -/

theorem getElem?_narrow4 (b : Nat) : ∀ (ws : List Nat) (k r : Nat), r < 4 → k < ws.length →
    (narrow4 b ws)[4 * k + r]? = some (ws.getD k 0 / b ^ r % b) := by
  intro ws
  induction ws with
  | nil => intro k r _ hk; simp at hk
  | cons w ws ih =>
    intro k r hr hk
    cases k with
    | zero =>
      interval_cases r <;> simp [narrow4, Nat.pow_succ]
    | succ k =>
      have e : 4 * (k + 1) + r = (4 * k + r) + 1 + 1 + 1 + 1 := by omega
      rw [e]
      simp only [narrow4, List.getElem?_cons_succ, List.getD_cons_succ]
      exact ih k r hr (by simpa using hk)

theorem getElem?_widen4 (b : Nat) : ∀ (k : Nat) (l : List Nat), 4 * k + 3 < l.length →
    (widen4 b l)[k]? = some (l.getD (4 * k) 0 + b * l.getD (4 * k + 1) 0
      + b * b * l.getD (4 * k + 2) 0 + b * b * b * l.getD (4 * k + 3) 0) := by
  intro k
  induction k with
  | zero =>
    intro l h
    match l, h with
    | x0 :: x1 :: x2 :: x3 :: rest, _ => simp [widen4]
  | succ k ih =>
    intro l h
    match l, h with
    | x0 :: x1 :: x2 :: x3 :: rest, h =>
      have h' : 4 * k + 3 < rest.length := by simp at h; omega
      have e0 : 4 * (k + 1) = 4 * k + 1 + 1 + 1 + 1 := by omega
      have e1 : 4 * (k + 1) + 1 = 4 * k + 1 + 1 + 1 + 1 + 1 := by omega
      have e2 : 4 * (k + 1) + 2 = 4 * k + 2 + 1 + 1 + 1 + 1 := by omega
      have e3 : 4 * (k + 1) + 3 = 4 * k + 3 + 1 + 1 + 1 + 1 := by omega
      rw [e3, e2, e1, e0]
      simp only [widen4, List.getElem?_cons_succ, List.getD_cons_succ]
      exact ih rest h'

theorem length_widen4 (b : Nat) : ∀ (n : Nat) (l : List Nat), l.length = 4 * n →
    (widen4 b l).length = n := by
  intro n
  induction n with
  | zero => intro l h; match l, h with | [], _ => rfl
  | succ n ih =>
    intro l h
    match l, h with
    | x0 :: x1 :: x2 :: x3 :: rest, h =>
      simp only [widen4, List.length_cons]
      rw [ih rest (by simp at h; omega)]

theorem getElem?_narrow4_map_widen4 (b : Nat) (f : Nat → Nat) (l : List Nat) (m j : Nat)
    (hl : l.length = 4 * m) (hj : j < 4 * m) :
    (narrow4 b (((widen4 b l).take m).map f ++ (widen4 b l).drop m))[j]?
      = some (f (l.getD (4 * (j / 4)) 0 + b * l.getD (4 * (j / 4) + 1) 0
          + b * b * l.getD (4 * (j / 4) + 2) 0 + b * b * b * l.getD (4 * (j / 4) + 3) 0)
            / b ^ (j % 4) % b) := by
  have hw := length_widen4 b m l hl
  have hk : j / 4 < m := by omega
  have e : ((widen4 b l).take m).map f ++ (widen4 b l).drop m = (widen4 b l).map f := by
    rw [List.take_of_length_le (by omega), List.drop_of_length_le (by omega), List.append_nil]
  rw [e]
  have hj' : j = 4 * (j / 4) + j % 4 := by omega
  have hg := getElem?_narrow4 b ((widen4 b l).map f) (j / 4) (j % 4) (by omega)
    (by rw [List.length_map]; omega)
  rw [← hj'] at hg
  rw [hg]
  have hv := getElem?_widen4 b (j / 4) l (by omega)
  have hd : ((widen4 b l).map f).getD (j / 4) 0
      = f (l.getD (4 * (j / 4)) 0 + b * l.getD (4 * (j / 4) + 1) 0
          + b * b * l.getD (4 * (j / 4) + 2) 0 + b * b * b * l.getD (4 * (j / 4) + 3) 0) := by
    rw [List.getD_eq_getElem?_getD, List.getElem?_map, hv]
    rfl
  rw [hd]

theorem getD_range_map (g : Nat → Nat) (n i : Nat) (h : i < n) :
    ((List.range n).map g).getD i 0 = g i := by
  rw [List.getD_eq_getElem?_getD, List.getElem?_map, List.getElem?_range h]
  rfl

theorem lanes_of_sum (b x0 x1 x2 x3 : Nat) (h0 : x0 < b) (h1 : x1 < b) (h2 : x2 < b)
    (h3 : x3 < b) (r : Nat) (hr : r < 4) :
    (x0 + b * x1 + b * b * x2 + b * b * b * x3) / b ^ r % b
      = [x0, x1, x2, x3].getD r 0 := by
  have hb : 0 < b := by omega
  interval_cases r
  · simp only [pow_zero, Nat.div_one, List.getD_cons_zero]
    have e : x0 + b * x1 + b * b * x2 + b * b * b * x3
        = x0 + b * (x1 + b * x2 + b * b * x3) := by ring
    rw [e, Nat.add_mul_mod_self_left, Nat.mod_eq_of_lt h0]
  · simp only [pow_one, List.getD_cons_succ, List.getD_cons_zero]
    have e : x0 + b * x1 + b * b * x2 + b * b * b * x3
        = x0 + b * (x1 + b * (x2 + b * x3)) := by ring
    rw [e, Nat.add_mul_div_left _ _ hb, Nat.div_eq_of_lt h0, Nat.zero_add,
      Nat.add_mul_mod_self_left, Nat.mod_eq_of_lt h1]
  · simp only [List.getD_cons_succ, List.getD_cons_zero]
    have e : x0 + b * x1 + b * b * x2 + b * b * b * x3
        = (x0 + b * x1) + b ^ 2 * (x2 + b * x3) := by ring
    have hlt : x0 + b * x1 < b ^ 2 := by nlinarith
    rw [e, Nat.add_mul_div_left _ _ (by positivity), Nat.div_eq_of_lt hlt, Nat.zero_add,
      Nat.add_mul_mod_self_left, Nat.mod_eq_of_lt h2]
  · simp only [List.getD_cons_succ, List.getD_cons_zero]
    have e : x0 + b * x1 + b * b * x2 + b * b * b * x3
        = (x0 + b * x1 + b * b * x2) + b ^ 3 * x3 := by ring
    have hlt : x0 + b * x1 + b * b * x2 < b ^ 3 := by nlinarith [Nat.mul_le_mul_left b (Nat.succ_le_of_lt h1), Nat.mul_le_mul_left (b * b) (Nat.succ_le_of_lt h2)]
    rw [e, Nat.add_mul_div_left _ _ (by positivity), Nat.div_eq_of_lt hlt, Nat.zero_add,
      Nat.mod_eq_of_lt h3]

theorem vidx_u8_arith (k r : Nat) (hr : r < 4) (hk : 4 * k + 3 < 256) :
    (4 * k % 256 + 256 * ((4 * k + 1) % 256) + 256 * 256 * ((4 * k + 2) % 256)
        + 256 * 256 * 256 * ((4 * k + 3) % 256) + 2 ^ 32 - (0x3020100 - 0x10203) % 2 ^ 32)
      % 2 ^ 32 / 256 ^ r % 256 = 4 * k + 3 - r := by
  have e : (4 * k % 256 + 256 * ((4 * k + 1) % 256) + 256 * 256 * ((4 * k + 2) % 256)
        + 256 * 256 * 256 * ((4 * k + 3) % 256) + 2 ^ 32 - (0x3020100 - 0x10203) % 2 ^ 32)
      % 2 ^ 32 = (4 * k + 3) + 256 * (4 * k + 2) + 256 * 256 * (4 * k + 1)
        + 256 * 256 * 256 * (4 * k) := by
    rw [Nat.mod_eq_of_lt (by omega : 4 * k < 256), Nat.mod_eq_of_lt (by omega : 4 * k + 1 < 256),
      Nat.mod_eq_of_lt (by omega : 4 * k + 2 < 256), Nat.mod_eq_of_lt hk]
    omega
  rw [e, lanes_of_sum 256 _ _ _ _ (by omega) (by omega) (by omega) (by omega) r hr]
  interval_cases r <;> simp

theorem vidx_u16_arith (k r : Nat) (hr : r < 4) (hk : 4 * k + 3 < 65536) :
    (4 * k % 65536 + 65536 * ((4 * k + 1) % 65536) + 65536 * 65536 * ((4 * k + 2) % 65536)
        + 65536 * 65536 * 65536 * ((4 * k + 3) % 65536) + 2 ^ 64
        - (0x3000200010000 - 0x100020003) % 2 ^ 64)
      % 2 ^ 64 / 65536 ^ r % 65536 = 4 * k + 3 - r := by
  have e : (4 * k % 65536 + 65536 * ((4 * k + 1) % 65536)
        + 65536 * 65536 * ((4 * k + 2) % 65536)
        + 65536 * 65536 * 65536 * ((4 * k + 3) % 65536) + 2 ^ 64
        - (0x3000200010000 - 0x100020003) % 2 ^ 64)
      % 2 ^ 64 = (4 * k + 3) + 65536 * (4 * k + 2) + 65536 * 65536 * (4 * k + 1)
        + 65536 * 65536 * 65536 * (4 * k) := by
    rw [Nat.mod_eq_of_lt (by omega : 4 * k < 65536),
      Nat.mod_eq_of_lt (by omega : 4 * k + 1 < 65536),
      Nat.mod_eq_of_lt (by omega : 4 * k + 2 < 65536), Nat.mod_eq_of_lt hk]
    omega
  rw [e, lanes_of_sum 65536 _ _ _ _ (by omega) (by omega) (by omega) (by omega) r hr]
  interval_cases r <;> simp

theorem getElem?_rvv_vidx_u8 (vlmax j : Nat) (h4 : 4 ∣ vlmax) (hv : vlmax ≤ 256)
    (hj : j < vlmax) : (rvv_vidx_u8 vlmax)[j]? = some (4 * (j / 4) + 3 - j % 4) := by
  obtain ⟨m, rfl⟩ := h4
  have hm : 4 * m / 4 = m := by omega
  unfold rvv_vidx_u8 riscv_vreinterpret_u8m1 riscv_vsub_u32 riscv_vreinterpret_u32m1
  rw [hm, getElem?_narrow4_map_widen4 256 _ (riscv_vid_v_u8m1 (4 * m)) m j
    (by simp [riscv_vid_v_u8m1]) hj]
  unfold riscv_vid_v_u8m1
  rw [getD_range_map _ _ _ (by omega), getD_range_map _ _ _ (by omega),
    getD_range_map _ _ _ (by omega), getD_range_map _ _ _ (by omega)]
  refine congrArg some ?_
  exact vidx_u8_arith (j / 4) (j % 4) (Nat.mod_lt _ (by norm_num)) (by omega)

theorem getElem?_rvv_vidx_u16 (vlmax j : Nat) (h4 : 4 ∣ vlmax) (hj : j < vlmax)
    (hb : j < 65536) : (rvv_vidx_u16 vlmax)[j]? = some (4 * (j / 4) + 3 - j % 4) := by
  obtain ⟨m, rfl⟩ := h4
  have hm : 4 * m / 4 = m := by omega
  unfold rvv_vidx_u16 riscv_vreinterpret_u16m2 riscv_vsub_u64 riscv_vreinterpret_u64m2
  rw [hm, getElem?_narrow4_map_widen4 65536 _ (riscv_vid_v_u16m2 (4 * m)) m j
    (by simp [riscv_vid_v_u16m2]) hj]
  unfold riscv_vid_v_u16m2
  rw [getD_range_map _ _ _ (by omega), getD_range_map _ _ _ (by omega),
    getD_range_map _ _ _ (by omega), getD_range_map _ _ _ (by omega)]
  refine congrArg some ?_
  exact vidx_u16_arith (j / 4) (j % 4) (Nat.mod_lt _ (by norm_num)) (by omega)

theorem vidx_u8_word (k : Nat) (hk : 4 * k + 3 < 256) :
    (4 * k % 256 + 256 * ((4 * k + 1) % 256) + 256 * 256 * ((4 * k + 2) % 256)
        + 256 * 256 * 256 * ((4 * k + 3) % 256) + 2 ^ 32 - (0x3020100 - 0x10203) % 2 ^ 32)
      % 2 ^ 32 = (4 * k + 3) + 256 * (4 * k + 2) + 65536 * (4 * k + 1) + 16777216 * (4 * k) := by
  rw [Nat.mod_eq_of_lt (by omega : 4 * k < 256), Nat.mod_eq_of_lt (by omega : 4 * k + 1 < 256),
    Nat.mod_eq_of_lt (by omega : 4 * k + 2 < 256), Nat.mod_eq_of_lt hk]
  omega

theorem vidx_u16_word (k : Nat) (hk : 4 * k + 3 < 65536) :
    (4 * k % 65536 + 65536 * ((4 * k + 1) % 65536) + 65536 * 65536 * ((4 * k + 2) % 65536)
        + 65536 * 65536 * 65536 * ((4 * k + 3) % 65536) + 2 ^ 64
        - (0x3000200010000 - 0x100020003) % 2 ^ 64)
      % 2 ^ 64 = (4 * k + 3) + 65536 * (4 * k + 2) + 4294967296 * (4 * k + 1)
        + 281474976710656 * (4 * k) := by
  rw [Nat.mod_eq_of_lt (by omega : 4 * k < 65536),
    Nat.mod_eq_of_lt (by omega : 4 * k + 1 < 65536),
    Nat.mod_eq_of_lt (by omega : 4 * k + 2 < 65536), Nat.mod_eq_of_lt hk]
  omega

theorem getElem?_map_widen4 (b : Nat) (f : Nat → Nat) (l : List Nat) (m k : Nat)
    (hl : l.length = 4 * m) (hk : k < m) :
    (((widen4 b l).take m).map f ++ (widen4 b l).drop m)[k]?
      = some (f (l.getD (4 * k) 0 + b * l.getD (4 * k + 1) 0
          + b * b * l.getD (4 * k + 2) 0 + b * b * b * l.getD (4 * k + 3) 0)) := by
  have hw := length_widen4 b m l hl
  rw [List.take_of_length_le (by omega), List.drop_of_length_le (by omega), List.append_nil,
    List.getElem?_map, getElem?_widen4 b k l (by omega)]
  rfl

theorem getElem?_rvv_words_u8 (vlmax k : Nat) (h4 : 4 ∣ vlmax) (hv : vlmax ≤ 256)
    (hk : 4 * k + 3 < vlmax) :
    (riscv_vsub_u32 (riscv_vreinterpret_u32m1 (riscv_vid_v_u8m1 vlmax))
        (0x3020100 - 0x10203) (vlmax / 4))[k]?
      = some ((4 * k + 3) + 256 * (4 * k + 2) + 65536 * (4 * k + 1) + 16777216 * (4 * k)) := by
  obtain ⟨m, rfl⟩ := h4
  have hm : 4 * m / 4 = m := by omega
  unfold riscv_vsub_u32 riscv_vreinterpret_u32m1
  rw [hm, getElem?_map_widen4 256 _ (riscv_vid_v_u8m1 (4 * m)) m k
    (by simp [riscv_vid_v_u8m1]) (by omega)]
  unfold riscv_vid_v_u8m1
  rw [getD_range_map _ _ _ (by omega), getD_range_map _ _ _ (by omega),
    getD_range_map _ _ _ (by omega), getD_range_map _ _ _ (by omega)]
  refine congrArg some ?_
  exact vidx_u8_word k (by omega)

theorem getElem?_rvv_words_u16 (vlmax k : Nat) (h4 : 4 ∣ vlmax)
    (hk : 4 * k + 3 < vlmax) (hb : 4 * k + 3 < 65536) :
    (riscv_vsub_u64 (riscv_vreinterpret_u64m2 (riscv_vid_v_u16m2 vlmax))
        (0x3000200010000 - 0x100020003) (vlmax / 4))[k]?
      = some ((4 * k + 3) + 65536 * (4 * k + 2) + 4294967296 * (4 * k + 1)
          + 281474976710656 * (4 * k)) := by
  obtain ⟨m, rfl⟩ := h4
  have hm : 4 * m / 4 = m := by omega
  unfold riscv_vsub_u64 riscv_vreinterpret_u64m2
  rw [hm, getElem?_map_widen4 65536 _ (riscv_vid_v_u16m2 (4 * m)) m k
    (by simp [riscv_vid_v_u16m2]) (by omega)]
  unfold riscv_vid_v_u16m2
  rw [getD_range_map _ _ _ (by omega), getD_range_map _ _ _ (by omega),
    getD_range_map _ _ _ (by omega), getD_range_map _ _ _ (by omega)]
  refine congrArg some ?_
  exact vidx_u16_word k hb

/-! ## The stated properties, concluded -/

/-- C21: with `vlmax` a multiple of 4 (it is the number of bytes of a vector
register that holds 32-bit elements). In the branch `vlmax <= 256` of
`volk_32u_byteswap_rvv`, the bytes `0, 1, ..., vlmax - 1` read as little-endian
32-bit words, minus `0x3020100 - 0x10203` modulo `2 ^ 32`, give at every byte
position `j < vlmax` the index `4 * (j / 4) + 3 - j % 4`; word `k` of the
difference is `(4k+3) + 256 (4k+2) + 65536 (4k+1) + 16777216 (4k)`, each of
its four bytes lying in `0 .. 255`, so that no borrow passes between bytes. In
the other branch, the 16-bit values `0, 1, ..., vlmax - 1` read as
little-endian 64-bit words, minus `0x3000200010000 - 0x100020003` modulo
`2 ^ 64`, give at every 16-bit position `j < vlmax`, `j < 65536`, the index
`4 * (j / 4) + 3 - j % 4`, word `k` of the difference being the combination of
the four 16-bit values `4k+3, 4k+2, 4k+1, 4k`. -/
theorem rvv_gather_index (vlmax : Nat) (h4 : 4 ∣ vlmax) :
    (vlmax ≤ 256 →
      (∀ j, j < vlmax → (rvv_vidx_u8 vlmax)[j]? = some (4 * (j / 4) + 3 - j % 4)) ∧
      (∀ k, 4 * k + 3 < vlmax →
        (riscv_vsub_u32 (riscv_vreinterpret_u32m1 (riscv_vid_v_u8m1 vlmax))
            (0x3020100 - 0x10203) (vlmax / 4))[k]?
          = some ((4 * k + 3) + 256 * (4 * k + 2) + 65536 * (4 * k + 1)
              + 16777216 * (4 * k)) ∧ 4 * k + 3 < 256)) ∧
    (∀ j, j < vlmax → j < 65536 →
      (rvv_vidx_u16 vlmax)[j]? = some (4 * (j / 4) + 3 - j % 4)) ∧
    (∀ k, 4 * k + 3 < vlmax → 4 * k + 3 < 65536 →
      (riscv_vsub_u64 (riscv_vreinterpret_u64m2 (riscv_vid_v_u16m2 vlmax))
          (0x3000200010000 - 0x100020003) (vlmax / 4))[k]?
        = some ((4 * k + 3) + 65536 * (4 * k + 2) + 4294967296 * (4 * k + 1)
            + 281474976710656 * (4 * k))) :=
  ⟨fun hv => ⟨fun j hj => getElem?_rvv_vidx_u8 vlmax j h4 hv hj,
      fun k hk => ⟨getElem?_rvv_words_u8 vlmax k h4 hv hk, by omega⟩⟩,
    fun j hj hb => getElem?_rvv_vidx_u16 vlmax j h4 hj hb,
    fun k hk hb => getElem?_rvv_words_u16 vlmax k h4 hk hb⟩

/-- Witness of C21 for `vlmax = 16` in the byte branch and `vlmax = 512` in the
16-bit branch. -/
theorem rvv_gather_index_witness :
    (rvv_vidx_u8 16)[5]? = some 6 ∧ (rvv_vidx_u8 16)[15]? = some 12 ∧
    (rvv_vidx_u16 512)[509]? = some 510 ∧ (rvv_vidx_u16 512)[300]? = some 303 :=
  ⟨((rvv_gather_index 16 (by decide)).1 (by decide)).1 5 (by decide),
    ((rvv_gather_index 16 (by decide)).1 (by decide)).1 15 (by decide),
    (rvv_gather_index 512 (by decide)).2.1 509 (by decide) (by decide),
    (rvv_gather_index 512 (by decide)).2.1 300 (by decide) (by decide)⟩

end Volk
